import Mathlib

set_option maxHeartbeats 1000000
set_option maxRecDepth 4000

namespace L1

/-! Shallow embedding of the judgment-synthesis engine of the
`jiradashl1` repository (files `l1_dashboard.py` and `l1_dashboard_web.py`).
Python strings are modelled as `String`, machine integers as `Int`/`Nat`
(Python integers are unbounded, so no wrap-around is modelled), fallible
code as `Option`/`Except`.  HTTP traffic is modelled by an oracle
`Nat → Outcome` indexed by the number of requests issued so far. -/

/-! ## Python string primitives -/

/-- Whitespace characters of Python `str.strip()` / regex `\s`
(ASCII subset; the texts handled by the source are ASCII plus Latin-1
letters, on which this coincides with Python). -/
def isPyWs (c : Char) : Bool :=
  c = ' ' || c = '\t' || c = '\n' || c = '\r' || c = '\x0b' || c = '\x0c'

/-- Strip leading and trailing whitespace from a character list. -/
def stripChars (cs : List Char) : List Char :=
  ((cs.dropWhile isPyWs).reverse.dropWhile isPyWs).reverse

/-- Python `str.strip()`. -/
def pyStrip (s : String) : String := String.mk (stripChars s.toList)

/-- Python `str.lower()` on the Latin letters occurring in the source
(ASCII letters plus accented vowels and cedilla). -/
def pyLowerChar (c : Char) : Char :=
  if 'A' ≤ c && c ≤ 'Z' then c.toLower
  else match c with
  | 'Á' => 'á' | 'À' => 'à' | 'Â' => 'â' | 'Ã' => 'ã' | 'Ä' => 'ä'
  | 'É' => 'é' | 'È' => 'è' | 'Ê' => 'ê' | 'Ë' => 'ë'
  | 'Í' => 'í' | 'Ì' => 'ì' | 'Î' => 'î' | 'Ï' => 'ï'
  | 'Ó' => 'ó' | 'Ò' => 'ò' | 'Ô' => 'ô' | 'Õ' => 'õ' | 'Ö' => 'ö'
  | 'Ú' => 'ú' | 'Ù' => 'ù' | 'Û' => 'û' | 'Ü' => 'ü'
  | 'Ç' => 'ç' | 'Ñ' => 'ñ'
  | _ => c

/-- Python `str.lower()`. -/
def pyLower (s : String) : String := String.mk (s.toList.map pyLowerChar)

/-- Diacritic folding modelling
`unicodedata.normalize('NFD', t)` followed by dropping the combining
marks (category `Mn`), restricted to the lowercase Latin-1 letters the
source texts use; every other character is left unchanged. -/
def stripAccentChar (c : Char) : Char :=
  match c with
  | 'á' | 'à' | 'â' | 'ã' | 'ä' => 'a'
  | 'é' | 'è' | 'ê' | 'ë' => 'e'
  | 'í' | 'ì' | 'î' | 'ï' => 'i'
  | 'ó' | 'ò' | 'ô' | 'õ' | 'ö' => 'o'
  | 'ú' | 'ù' | 'û' | 'ü' => 'u'
  | 'ç' => 'c' | 'ñ' => 'n'
  | _ => c

/-- Accent folding on a whole string. -/
def stripAccents (s : String) : String := String.mk (s.toList.map stripAccentChar)

/-- Containment of `n` in `h` as in Python's `n in h` (substring test;
the empty needle is contained in everything). -/
def subOf (n : List Char) : (h : List Char) → Bool
  | [] => n.isEmpty
  | c :: t => n.isPrefixOf (c :: t) || subOf n t

/-- Python `needle in hay` on strings. -/
def pyIn (needle hay : String) : Bool := subOf needle.toList hay.toList

/-- Python `hay.startswith(needle)`. -/
def pyStarts (needle hay : String) : Bool := needle.toList.isPrefixOf hay.toList

/-- Python `hay.endswith(needle)`. -/
def pyEnds (needle hay : String) : Bool := needle.toList.isSuffixOf hay.toList

/-- Python `s[:n]` (slice by code points, like `String.take`). -/
def pyTake (n : Nat) (s : String) : String := String.mk (s.toList.take n)

/-- Python `len(s)` (number of code points). -/
def pyLen (s : String) : Nat := s.toList.length

/-- Prepend a character onto the first piece of a split result. -/
def consHead (c : Char) : List (List Char) → List (List Char)
  | [] => [[c]]
  | h :: t => (c :: h) :: t

/-- Split on a non-empty separator `s0 :: ss`, non-overlapping, left to
right, with Python `str.split` semantics (`"".split(sep) = [""]`).
Fuel-recursive (structural on the fuel, so the kernel can evaluate it);
every step consumes at least one character, so fuel `length + 1` is
always enough. -/
def splitOnListF (s0 : Char) (ss : List Char) : Nat → List Char → List (List Char)
  | 0, rest => [rest]
  | _ + 1, [] => [[]]
  | fuel + 1, c :: t =>
    if (s0 :: ss).isPrefixOf (c :: t) then
      [] :: splitOnListF s0 ss fuel (t.drop ss.length)
    else consHead c (splitOnListF s0 ss fuel t)

/-- Python `s.split(sep)` for a non-empty separator (the source only
splits on `"\n"` and <code>```</code>). -/
def pySplit (sep s : String) : List String :=
  match sep.toList with
  | [] => [s]
  | c :: cs => (splitOnListF c cs (s.toList.length + 1) s.toList).map String.mk

/-- Python `s.lstrip('#')`. -/
def lstripHash (s : String) : String := String.mk (s.toList.dropWhile (· = '#'))

/-- Python `s.rstrip('.')`. -/
def rstripDot (s : String) : String :=
  String.mk ((s.toList.reverse.dropWhile (· = '.')).reverse)

/-! ## Normalization utilities of `l1_dashboard.py` -/

/-- Translation of `_normalize_for_contradiction` (l1_dashboard.py:1246):
strip, lowercase, fold diacritics.  The `if not text` guard returns `''`
for the empty string, which coincides with the computation itself. -/
def nfNorm (text : String) : String := stripAccents (pyLower (pyStrip text))

/-- Keywords of `_looks_like_melhoria` (l1_dashboard.py:1213). -/
def melhoriaKeywords : List String :=
  ["estourado", "estourou", "fora do sla", "extrapolou", "atraso", "atrasou",
   "nao seguida", "não seguida", "regra nao", "regra não", "violou", "violacao",
   "baixo", "insatisfatorio", "insatisfatório", "incompleto", "incompleta",
   "inadequad", "vago", "vagos", "inadequado", "negativo", "negativos",
   "pontos de melhoria", "melhoria:", "frt estourado", "ttr estourado",
   "satisfaction 1", "satisfaction 2", "satisfaction baixo", "sem @reporter",
   "nao alcanca", "não alcança", "satisfacao nao alcanca", "satisfação não alcança"]

/-- Translation of `_looks_like_melhoria`: note its body normalizes with
strip + lower + diacritic folding, the same composition as `nfNorm`. -/
def looksLikeMelhoria (text : String) : Bool :=
  melhoriaKeywords.any (fun k => pyIn k (nfNorm text))

/-- Keywords of `_looks_like_forte` (l1_dashboard.py:1231). -/
def forteKeywords : List String :=
  ["dentro do sla", "cumprido", "cumprida", "no prazo", "no tempo",
   "alto", "satisfaction alto", "satisfaction 4", "satisfaction 5",
   "clara", "claro", "resolutivo", "resolutiva", "marcou @", "corporativa",
   "educado", "regras seguidas", "forte:", "pontos fortes"]

/-- Translation of `_looks_like_forte`. -/
def looksLikeForte (text : String) : Bool :=
  forteKeywords.any (fun k => pyIn k (nfNorm text))

/-! ## Contradiction resolver (`_remove_contradictions`, l1_dashboard.py:1254)

Each predicate below transcribes one of the keyword tests of the source,
with Python's `and`/`or` precedence made explicit. -/

/-- Test of `mel_has_frt_estourado` on one item (l1_dashboard.py:1266). -/
def melFrtViol (m : String) : Bool :=
  let n := nfNorm m
  pyIn "frt estourado" n
    || (pyIn "first response" n && (pyIn "estourado" n || pyIn "fora" n))
    || (pyIn "time to first response" n && pyIn "estourado" n)

/-- Test of `mel_has_ttr_estourado` on one item (l1_dashboard.py:1271);
`A or (B or C) and D or E and D` parses as `A ∨ ((B ∨ C) ∧ D) ∨ (E ∧ D)`. -/
def melTtrViol (m : String) : Bool :=
  let n := nfNorm m
  pyIn "ttr estourado" n
    || ((pyIn "time to resolution" n || pyIn "time to close" n) && pyIn "estourado" n)
    || (pyIn "resolution" n && pyIn "estourado" n)

/-- FRT-compliance pattern used both by `_forte_contradiz_sla` and by
`fort_has_frt_dentro` (l1_dashboard.py:1282, 1290). -/
def fortFrtComp (f : String) : Bool :=
  let n := nfNorm f
  (pyIn "frt" n || pyIn "first response" n)
    && (pyIn "dentro" n || pyIn "cumprido" n || pyIn "sla" n)

/-- TTR-compliance pattern used both by `_forte_contradiz_sla` and by
`fort_has_ttr_dentro` (l1_dashboard.py:1284, 1294). -/
def fortTtrComp (f : String) : Bool :=
  let n := nfNorm f
  (pyIn "ttr" n || pyIn "resolution" n || pyIn "time to close" n)
    && (pyIn "dentro" n || pyIn "cumprido" n || pyIn "sla" n)

/-- Translation of the inner `_forte_contradiz_sla` (l1_dashboard.py:1276),
parameterized by the two flags computed from the `melhorias` list. -/
def forteContradizSla (frtFlag ttrFlag : Bool) (f : String) : Bool :=
  let n := nfNorm f
  pyIn "fora do sla" n || pyIn "fora sla" n
    || (pyIn "ttr" n && pyIn "frt" n)
    || (frtFlag && fortFrtComp f)
    || (ttrFlag && fortTtrComp f)

/-- Narrower FRT-violation pattern removed from `melhorias` when the
`fortes` list claims FRT compliance (l1_dashboard.py:1299). -/
def melFrtEstNarrow (m : String) : Bool :=
  let n := nfNorm m
  pyIn "frt estourado" n || (pyIn "first response" n && pyIn "estourado" n)

/-- Narrower TTR-violation pattern removed from `melhorias` when the
`fortes` list claims TTR compliance (l1_dashboard.py:1301). -/
def melTtrEstNarrow (m : String) : Bool :=
  let n := nfNorm m
  pyIn "ttr estourado" n
    || ((pyIn "time to resolution" n || pyIn "time to close" n) && pyIn "estourado" n)

/-- Low-CSAT pattern (`mel_has_csat_baixo` and the symmetric removal,
l1_dashboard.py:1304, 1319). -/
def melCsatBaixo (m : String) : Bool :=
  let n := nfNorm m
  pyIn "csat baix" n || pyIn "satisfaction 1" n || pyIn "satisfaction 2" n

/-- High-CSAT pattern removed from `fortes` (l1_dashboard.py:1309). -/
def fortCsatAltoRemove (f : String) : Bool :=
  let n := nfNorm f
  pyIn "csat" n
    && (pyIn "entre 4" n || pyIn "entre 5" n || pyIn "alto" n
        || pyIn "satisfaction 4" n || pyIn "satisfaction 5" n)

/-- High-CSAT pattern of the flag `fort_has_csat_alto`
(l1_dashboard.py:1314; it additionally accepts `entre 6`). -/
def fortCsatAltoFlag (f : String) : Bool :=
  let n := nfNorm f
  pyIn "csat" n
    && (pyIn "entre 4" n || pyIn "entre 5" n || pyIn "entre 6" n || pyIn "alto" n
        || pyIn "satisfaction 4" n || pyIn "satisfaction 5" n)

/-- Tag/category mention (`mel_has_tags_neg`, l1_dashboard.py:1324). -/
def melTagsMention (m : String) : Bool :=
  let n := nfNorm m
  pyIn "tags" n || pyIn "categorias" n

/-- Adequate-tag-usage pattern removed from `fortes` (l1_dashboard.py:1329). -/
def fortTagsAdequado (f : String) : Bool :=
  let n := nfNorm f
  pyIn "uso adequado" n && (pyIn "tags" n || pyIn "categorias" n)

/-- TAPI/tolerance mention (`mel_has_tapi`, l1_dashboard.py:1334). -/
def melTapi (m : String) : Bool :=
  let n := nfNorm m
  pyIn "tapi" n || pyIn "tolerancia" n || pyIn "tolerância" n

/-- TAPI-compliance pattern removed from `fortes` (l1_dashboard.py:1336). -/
def fortTapiEntre (f : String) : Bool :=
  let n := nfNorm f
  pyIn "tapi" n && (pyIn "entre" n || pyIn "esta entre" n)

/-- Stage 1 of `_remove_contradictions` (l1_dashboard.py:1287): filter the
`fortes` against `_forte_contradiz_sla` with the flags computed from the
original `melhorias`. -/
def rcStage1 (mel fort : List String) : List String :=
  fort.filter (fun f => ! forteContradizSla (mel.any melFrtViol) (mel.any melTtrViol) f)

/-- Stage 2 (l1_dashboard.py:1298): drop FRT/TTR violations from
`melhorias` when the filtered `fortes` claim the matching compliance. -/
def rcStage2 (fort1 mel : List String) : List String :=
  let mel1 := if fort1.any fortFrtComp then mel.filter (fun m => ! melFrtEstNarrow m)
              else mel
  if fort1.any fortTtrComp then mel1.filter (fun m => ! melTtrEstNarrow m) else mel1

/-- Stage 3 (l1_dashboard.py:1308): drop high-CSAT `fortes` when the
current `melhorias` assert low CSAT. -/
def rcStage3 (mel2 fort1 : List String) : List String :=
  if mel2.any melCsatBaixo then fort1.filter (fun f => ! fortCsatAltoRemove f)
  else fort1

/-- Stage 4 (l1_dashboard.py:1318): drop low-CSAT `melhorias` when the
current `fortes` assert high CSAT. -/
def rcStage4 (fort2 mel2 : List String) : List String :=
  if fort2.any fortCsatAltoFlag then mel2.filter (fun m => ! melCsatBaixo m) else mel2

/-- Stage 5 (l1_dashboard.py:1328): drop adequate-tag-usage `fortes` when
the `melhorias` mention tags/categories. -/
def rcStage5 (mel3 fort2 : List String) : List String :=
  if mel3.any melTagsMention then fort2.filter (fun f => ! fortTagsAdequado f)
  else fort2

/-- Stage 6 (l1_dashboard.py:1335): drop TAPI-compliance `fortes` when the
`melhorias` mention TAPI/tolerance. -/
def rcStage6 (mel3 fort3 : List String) : List String :=
  if mel3.any melTapi then fort3.filter (fun f => ! fortTapiEntre f) else fort3

/-- Translation of `_remove_contradictions` (l1_dashboard.py:1254): the six
filter passes of the source in order, each flag computed from the list
state the source computes it from. -/
def removeContradictions (melhorias fortes : List String) :
    List String × List String :=
  if melhorias.isEmpty && fortes.isEmpty then (melhorias, fortes) else
  let fort1 := rcStage1 melhorias fortes
  let mel2 := rcStage2 fort1 melhorias
  let fort2 := rcStage3 mel2 fort1
  let mel3 := rcStage4 fort2 mel2
  let fort3 := rcStage5 mel3 fort2
  let fort4 := rcStage6 mel3 fort3
  (mel3, fort4)

/-! ## Qualitative parser (`_parse_pontos_ollama_response` and filters) -/

/-- Word character of regex `\w` restricted to the Latin letters of the
source texts: ASCII alphanumerics, underscore, accented Latin letters. -/
def isWordChar (c : Char) : Bool :=
  c.isAlphanum || c = '_' || stripAccentChar c ≠ c

/-- Match of `^[A-Za-z]{2,}-\d+$` (a Jira-key-like value,
`_is_nonsense_or_metadata_ponto`, l1_dashboard.py:1148). -/
def matchKeyLike (cs : List Char) : Bool :=
  let letters := cs.takeWhile Char.isAlpha
  decide (2 ≤ letters.length) &&
  (match cs.drop letters.length with
   | '-' :: ds => !ds.isEmpty && ds.all Char.isDigit
   | _ => false)

/-- Search of `\s*\(\d+\)\s*$`: the text ends (up to trailing whitespace)
with a parenthesized number (l1_dashboard.py:1153). -/
def endsParenNum (cs : List Char) : Bool :=
  match cs.reverse.dropWhile isPyWs with
  | ')' :: rest =>
      let ds := rest.takeWhile Char.isDigit
      !ds.isEmpty &&
      (match rest.drop ds.length with
       | '(' :: _ => true
       | _ => false)
  | _ => false

/-- Match of `^[\w\s]+\((assignee|reporter)\)\s*\[[\w.]+\]` on the lowered
text (l1_dashboard.py:1159).  The leading `[\w\s]+` run is maximal and
cannot contain `(`, so matching is deterministic. -/
def matchMetaPattern (cs : List Char) : Bool :=
  let run := cs.takeWhile (fun c => isWordChar c || isPyWs c)
  !run.isEmpty &&
  (let rest := cs.drop run.length
   let tryTag (tag : List Char) : Bool :=
     tag.isPrefixOf rest &&
     (match (rest.drop tag.length).dropWhile isPyWs with
      | '[' :: r3 =>
          let ws := r3.takeWhile (fun c => isWordChar c || c = '.')
          !ws.isEmpty &&
          (match r3.drop ws.length with
           | ']' :: _ => true
           | _ => false)
      | _ => false)
   tryTag "(assignee)".toList || tryTag "(reporter)".toList)

/-- Translation of `_is_nonsense_or_metadata_ponto` (l1_dashboard.py:1141). -/
def isNonsenseOrMetadataPonto (text : String) : Bool :=
  if text = "" then true else
  let t := pyStrip text
  let tl := pyLower t
  if matchKeyLike t.toList then true
  else if (pyIn "(assignee)" tl || pyIn "(reporter)" tl)
       && (pyIn "[at]" tl || pyIn "[resolved]" tl || pyIn "[acao]" tl
           || pyIn "[argumento]" tl) then true
  else if (pyIn "(assignee)" tl || pyIn "(reporter)" tl) && endsParenNum t.toList then
    true
  else if pyIn "[acao]" tl && pyIn "[argumento]" tl then true
  else if pyIn "[at]" tl && pyIn "resolved" tl
       && (pyIn "assignee" tl || pyIn "reporter" tl) then true
  else matchMetaPattern tl.toList

/-- Blocklist of `_is_sensible_ponto` (l1_dashboard.py:1175); the source
writes it as a set literal whose repeated members collapse, so it is
modelled as this list with `any`-semantics. -/
def sensibleBlocklist : List String :=
  ["n/a", "na", "nenhuma", "nenhum", "nenhuma.", "nenhum.",
   "nao mencionado", "não mencionado", "not mentioned", "none", "n.a.", "n.a",
   "melhoria", "melhoria:", "forte", "forte:",
   "sem melhoria", "sem forte", "nao aplicavel", "não aplicável", "n/a.",
   "nao especificado", "não especificado", "nao informado", "não informado",
   "no", "nao", "não", "nada", "nada.", "nao ha", "não há", "sem conteudo",
   "no specific", "not specified", "not applicable",
   "no especificamente", "não especificamente", "nao especificamente",
   "### melhoria", "### forte", "# melhoria", "# forte"]

/-- Translation of `_is_sensible_ponto` (l1_dashboard.py:1164). -/
def isSensiblePonto (text : String) : Bool :=
  if text = "" then false
  else if isNonsenseOrMetadataPonto text then false else
  let t := pyLower (pyStrip text)
  if pyLen t < 8 then false else
  let tn := pyStrip (lstripHash (stripAccents t))
  if sensibleBlocklist.contains tn then false
  else if sensibleBlocklist.any (fun b =>
      (decide (4 < pyLen b) && tn = b)
      || pyStarts (b ++ " ") tn || tn = b || rstripDot tn = b) then false
  else if tn = "melhoria:" || tn = "forte:" || tn = "melhoria" || tn = "forte" then
    false
  else true

/-- Translation of `_is_rule_or_wrong_category` (l1_dashboard.py:1199). -/
def isRuleOrWrongCategory (text : String) (forMelhoria : Bool) : Bool :=
  if text = "" then true else
  let t := pyLower (pyStrip text)
  if pyIn "regra:" t || pyIn "regra :" t || pyIn "pontos de melhoria =" t
     || pyIn "pontos fortes =" t then true
  else if forMelhoria && (pyIn "regras seguidas" t || pyIn "pontos positivos" t
       || pyIn "5 pontos positivos" t) then true
  else if !forMelhoria && (pyIn "regras não seguidas" t
       || pyIn "regras nao seguidas" t || pyIn "pontos negativos" t) then true
  else false

/-- Match of `^LABEL\s*[:\-]` for a literal lowercase label on an
already-lowered text (used by `_is_intro_line`). -/
def matchLabelSep (label cs : List Char) : Bool :=
  label.isPrefixOf cs &&
  (match (cs.drop label.length).dropWhile isPyWs with
   | ':' :: _ => true
   | '-' :: _ => true
   | _ => false)

/-- Translation of `_is_intro_line` (l1_dashboard.py:1341). -/
def isIntroLine (text : String) : Bool :=
  if text = "" || pyLen text < 20 then false else
  let t := pyLower (pyStrip text)
  if matchLabelSep "melhoria".toList t.toList
     || matchLabelSep "forte".toList t.toList then false
  else if (pyIn "poderia ter feito" t || pyIn "poderia ter" t)
       && (pyIn "reporter" t || pyIn "seguinte" t) then true
  else if pyEnds ":" t && (pyIn "analista" t || pyIn "assignee" t)
       && (pyIn "reporter" t || pyIn "atendido" t) then true
  else false

/-- Case-insensitive `re.sub(r'^\s*LABEL\s*[:\-]\s*', '', line)`: returns
the remainder when the prefix matches, `none` otherwise. -/
def stripLabel (label cs : List Char) : Option (List Char) :=
  let cs1 := cs.dropWhile isPyWs
  if label.isPrefixOf (cs1.map pyLowerChar) then
    match (cs1.drop label.length).dropWhile isPyWs with
    | ':' :: rest => some (rest.dropWhile isPyWs)
    | '-' :: rest => some (rest.dropWhile isPyWs)
    | _ => none
  else none

/-- Match of `^\s*[\-\*•]\s+`. -/
def matchBulletChar (cs : List Char) : Bool :=
  match cs.dropWhile isPyWs with
  | c :: rest =>
      (c = '-' || c = '*' || c = '•') &&
      (match rest with
       | r :: _ => isPyWs r
       | [] => false)
  | [] => false

/-- Match of `^\s*\d+[.)]\s+`. -/
def matchNumBullet (cs : List Char) : Bool :=
  let cs1 := cs.dropWhile isPyWs
  let ds := cs1.takeWhile Char.isDigit
  !ds.isEmpty &&
  (match cs1.drop ds.length with
   | c :: rest =>
       (c = '.' || c = ')') &&
       (match rest with
        | r :: _ => isPyWs r
        | [] => false)
   | [] => false)

/-- Greedy `re.sub(r'^\s*[\-\*•]\s+', '', line)`. -/
def subBulletChar (cs : List Char) : List Char :=
  if matchBulletChar cs then ((cs.dropWhile isPyWs).drop 1).dropWhile isPyWs else cs

/-- Greedy `re.sub(r'^\s*\d+[.)]\s+', '', line)`. -/
def subNumBullet (cs : List Char) : List Char :=
  if matchNumBullet cs then
    (((cs.dropWhile isPyWs).dropWhile Char.isDigit).drop 1).dropWhile isPyWs
  else cs

/-- Greedy `re.sub(r'^#+\s*', '', line)`. -/
def subHashPrefix (cs : List Char) : List Char :=
  match cs with
  | '#' :: _ => (cs.dropWhile (· = '#')).dropWhile isPyWs
  | _ => cs

/-- Split on every `;` or `\n` (`re.split(r'[;\n]', content)`). -/
def splitAnyChar (p : Char → Bool) : List Char → List (List Char)
  | [] => [[]]
  | c :: t =>
    let r := splitAnyChar p t
    if p c then [] :: r
    else
      match r with
      | h :: t2 => (c :: h) :: t2
      | [] => [[c]]

/-- Output of the qualitative parser. -/
structure Pontos where
  melhorias : List String
  fortes : List String
deriving Repr, DecidableEq

/-- Body of the line loop of `_parse_pontos_ollama_response`
(l1_dashboard.py:1364): category-labelled lines, then bullet lines. -/
def parsePontosLine (acc : Pontos) (rawLine : String) : Pontos :=
  let line := pyStrip (String.mk (subHashPrefix (pyStrip rawLine).toList))
  if line = "" then acc
  else if isIntroLine line then acc
  else
    match stripLabel "melhoria".toList line.toList with
    | some rest =>
        let m := pyStrip (String.mk rest)
        if m ≠ "" && decide (2 < pyLen m) && isSensiblePonto m
           && !isRuleOrWrongCategory m true && !looksLikeForte m then
          { acc with melhorias := acc.melhorias ++ [pyTake 450 m] }
        else acc
    | none =>
      match stripLabel "forte".toList line.toList with
      | some rest =>
          let m := pyStrip (String.mk rest)
          if m ≠ "" && decide (2 < pyLen m) && isSensiblePonto m
             && !isRuleOrWrongCategory m false && !looksLikeMelhoria m then
            { acc with fortes := acc.fortes ++ [pyTake 450 m] }
          else acc
      | none =>
        if matchBulletChar line.toList || matchNumBullet line.toList then
          let bullet := pyStrip (String.mk (subNumBullet (subBulletChar line.toList)))
          if bullet ≠ "" && decide (15 < pyLen bullet) && isSensiblePonto bullet then
            if !looksLikeForte bullet && !isRuleOrWrongCategory bullet true then
              { acc with melhorias := acc.melhorias ++ [pyTake 450 bullet] }
            else if !looksLikeMelhoria bullet && !isRuleOrWrongCategory bullet false then
              { acc with fortes := acc.fortes ++ [pyTake 450 bullet] }
            else acc
          else acc
        else acc

/-- Translation of `_parse_pontos_ollama_response` (l1_dashboard.py:1356). -/
def parsePontos (content0 : String) : Pontos :=
  if content0 = "" then ⟨[], []⟩ else
  let content := pyStrip content0
  let afterLines := (pySplit "\n" content).foldl parsePontosLine ⟨[], []⟩
  let base :=
    if afterLines.melhorias.isEmpty && afterLines.fortes.isEmpty then
      let parts := (splitAnyChar (fun c => c = ';' || c = '\n') content.toList).map
        (fun cs => pyStrip (String.mk cs))
      { afterLines with
        melhorias := parts.foldl (fun mAcc part =>
          if isIntroLine part then mAcc
          else if decide (10 ≤ pyLen part) && decide (pyLen part < 300)
               && isSensiblePonto part && !isRuleOrWrongCategory part true
               && !looksLikeForte part then mAcc ++ [pyTake 450 part]
          else mAcc) [] }
    else afterLines
  let mel1 := (base.melhorias.take 5).filter (fun x =>
      !isNonsenseOrMetadataPonto x && !isRuleOrWrongCategory x true && !looksLikeForte x)
  let fort1 := (base.fortes.take 5).filter (fun x =>
      !isNonsenseOrMetadataPonto x && !isRuleOrWrongCategory x false
      && !looksLikeMelhoria x)
  let fort2 := fort1.filter (fun f =>
      !pyIn "estourado" (nfNorm f) && !pyIn "nao alcanca" (nfNorm f)
      && !pyIn "não alcança" (nfNorm f))
  let fort3 := fort2.filter (fun f => !(pyIn "ttr" (nfNorm f) && pyIn "frt" (nfNorm f)))
  let p := removeContradictions mel1 fort3
  ⟨p.1.take 5, p.2.take 5⟩

/-! ## JSON values and `json.loads`

Python floats are modelled as exact decimals `mant * 10 ^ exp`; literals
whose magnitude reaches `10 ^ 309` (which Python's float parser turns into
infinity) are detected at `int()`-conversion time, where Python raises
`OverflowError`.  `NaN`, `Infinity` and `-Infinity` are accepted literals,
as in Python's default `json.loads`. -/

inductive J where
  | jnull
  | jbool (b : Bool)
  | jint (n : Int)
  | jfloat (mant : Int) (exp : Int)
  | jnan
  | jinf (neg : Bool)
  | jstr (s : String)
  | jarr (xs : List J)
  | jobj (fields : List (String × J))

/-- JSON whitespace accepted between tokens by `json.loads`. -/
def jsonWs (c : Char) : Bool := c = ' ' || c = '\t' || c = '\n' || c = '\r'

/-- Value of a hexadecimal digit. -/
def hexVal (c : Char) : Option Nat :=
  let n := c.toNat
  if 48 ≤ n ∧ n ≤ 57 then some (n - 48)
  else if 97 ≤ n ∧ n ≤ 102 then some (n - 87)
  else if 65 ≤ n ∧ n ≤ 70 then some (n - 55)
  else none

/-- Numeric value of one decimal digit character. -/
def digitVal (d : Char) : Int := ((d.toNat - '0'.toNat : Nat) : Int)

/-- Numeric value of a run of decimal digit characters. -/
def digitsToInt (ds : List Char) : Int := ds.foldl (fun a d => a * 10 + digitVal d) 0

/-- Translation of a JSON simple escape character. -/
def escChar : Char → Option Char
  | '"' => some '"'
  | '\\' => some '\\'
  | '/' => some '/'
  | 'b' => some '\x08'
  | 'f' => some '\x0c'
  | 'n' => some '\n'
  | 'r' => some '\r'
  | 't' => some '\t'
  | _ => none

/-- Body of a strict JSON string after its opening quote: plain characters
must be at least `0x20`, escapes are the JSON ones (a `\uXXXX` outside the
valid scalar range falls back to `Char.ofNat`'s default, a divergence only
for lone surrogates). -/
def parseJStringAux : List Char → List Char → Option (String × List Char)
  | _, [] => none
  | acc, '"' :: rest => some (String.mk acc.reverse, rest)
  | acc, '\\' :: 'u' :: h1 :: h2 :: h3 :: h4 :: r3 =>
    (match hexVal h1, hexVal h2, hexVal h3, hexVal h4 with
     | some a, some b, some c, some d =>
       parseJStringAux (Char.ofNat (((a * 16 + b) * 16 + c) * 16 + d) :: acc) r3
     | _, _, _, _ => none)
  | _, '\\' :: 'u' :: _ => none
  | acc, '\\' :: e :: r2 =>
    (match escChar e with
     | some c => parseJStringAux (c :: acc) r2
     | none => none)
  | _, ['\\'] => none
  | acc, c :: rest =>
    if c.toNat < 0x20 then none else parseJStringAux (c :: acc) rest

/-- Greedy JSON number token per Python's `json` number regex
`(-?(?:0|[1-9]\d*))(\.\d+)?([eE][-+]?\d+)?`; an invalid fraction or
exponent is not consumed. -/
def parseJNumber (cs : List Char) : Option (J × List Char) :=
  let sgn := match cs with
    | '-' :: t => (true, t)
    | _ => (false, cs)
  let neg := sgn.1
  let cs1 := sgn.2
  let ds := cs1.takeWhile Char.isDigit
  if ds.isEmpty then none
  else if 1 < ds.length && ds.head? = some '0' then none
  else
    let r1 := cs1.drop ds.length
    let fr : List Char × List Char := match r1 with
      | '.' :: t =>
        let f := t.takeWhile Char.isDigit
        if f.isEmpty then ([], r1) else (f, t.drop f.length)
      | _ => ([], r1)
    let fs := fr.1
    let r2 := fr.2
    let ex : Option Int × List Char := match r2 with
      | e :: t =>
        if e = 'e' || e = 'E' then
          let st : Int × List Char := match t with
            | '+' :: u => (1, u)
            | '-' :: u => (-1, u)
            | _ => (1, t)
          let es := st.2.takeWhile Char.isDigit
          if es.isEmpty then (none, r2)
          else (some (st.1 * digitsToInt es), st.2.drop es.length)
        else (none, r2)
      | _ => (none, r2)
    let isFloat := !fs.isEmpty || ex.1.isSome
    let mantAbs := digitsToInt (ds ++ fs)
    let mant := if neg then -mantAbs else mantAbs
    if isFloat then some (J.jfloat mant (ex.1.getD 0 - (fs.length : Int)), ex.2)
    else some (J.jint mant, ex.2)

/-- Object body after `{` (or after a committing comma), parameterized by
the value parser for the recursion into field values: either an immediate
`}` when no pair has been read yet, or a `"key": value` pair followed by
`,` or `}`.  Structural on its own fuel. -/
def objLoop (pv : List Char → Option (J × List Char)) :
    Nat → List Char → List (String × J) → Option (J × List Char)
  | 0, _, _ => none
  | fuel + 1, cs0, acc =>
    match cs0.dropWhile jsonWs with
    | '}' :: rest => if acc.isEmpty then some (J.jobj [], rest) else none
    | '"' :: rest =>
      (match parseJStringAux [] rest with
       | none => none
       | some (k, r1) =>
         match r1.dropWhile jsonWs with
         | ':' :: r2 =>
           (match pv r2 with
            | none => none
            | some (v, r3) =>
              match r3.dropWhile jsonWs with
              | ',' :: r4 => objLoop pv fuel r4 (acc ++ [(k, v)])
              | '}' :: r4 => some (J.jobj (acc ++ [(k, v)]), r4)
              | _ => none)
         | _ => none)
    | _ => none

/-- Array body after `[` (or after a committing comma). -/
def arrLoop (pv : List Char → Option (J × List Char)) :
    Nat → List Char → List J → Option (J × List Char)
  | 0, _, _ => none
  | fuel + 1, cs0, acc =>
    match cs0.dropWhile jsonWs with
    | ']' :: rest => if acc.isEmpty then some (J.jarr [], rest) else none
    | cs =>
      (match pv cs with
       | none => none
       | some (v, r1) =>
         match r1.dropWhile jsonWs with
         | ',' :: r2 => arrLoop pv fuel r2 (acc ++ [v])
         | ']' :: r2 => some (J.jarr (acc ++ [v]), r2)
         | _ => none)

/-- Recursive-descent JSON value parser; every recursive call consumes at
least one character, so fuel `length + 1` never runs out. -/
def parseJValue : Nat → List Char → Option (J × List Char)
  | 0, _ => none
  | fuel + 1, cs0 =>
    let cs := cs0.dropWhile jsonWs
    match cs with
    | [] => none
    | '{' :: rest => objLoop (parseJValue fuel) (rest.length + 1) rest []
    | '[' :: rest => arrLoop (parseJValue fuel) (rest.length + 1) rest []
    | '"' :: rest => (parseJStringAux [] rest).map (fun p => (J.jstr p.1, p.2))
    | '-' :: r =>
      if "Infinity".toList.isPrefixOf r then some (J.jinf true, r.drop 8)
      else parseJNumber cs
    | c :: _ =>
      if c = 't' then
        if "true".toList.isPrefixOf cs then some (J.jbool true, cs.drop 4) else none
      else if c = 'f' then
        if "false".toList.isPrefixOf cs then some (J.jbool false, cs.drop 5) else none
      else if c = 'n' then
        if "null".toList.isPrefixOf cs then some (J.jnull, cs.drop 4) else none
      else if c = 'N' then
        if "NaN".toList.isPrefixOf cs then some (J.jnan, cs.drop 3) else none
      else if c = 'I' then
        if "Infinity".toList.isPrefixOf cs then some (J.jinf false, cs.drop 8) else none
      else if c.isDigit then parseJNumber cs
      else none

/-- Translation of `json.loads`: parse one value, then only whitespace may
remain (otherwise Python raises `JSONDecodeError: Extra data`). -/
def jsonLoads (s : String) : Option J :=
  match parseJValue (s.toList.length + 1) s.toList with
  | some (v, rest) => if (rest.dropWhile jsonWs).isEmpty then some v else none
  | none => none

/-- Python `dict.get` on the field list of a JSON object: later duplicate
keys override earlier ones. -/
def jGetObj (fields : List (String × J)) (k : String) : Option J :=
  (fields.reverse.find? (fun p => p.1 = k)).map (fun p => p.2)

/-- Python truthiness of a decoded JSON value. -/
def jTruthy : J → Bool
  | .jnull => false
  | .jbool b => b
  | .jint n => n ≠ 0
  | .jfloat m _ => m ≠ 0
  | .jnan => true
  | .jinf _ => true
  | .jstr s => s ≠ ""
  | .jarr xs => !xs.isEmpty
  | .jobj fs => !fs.isEmpty

/-- Classification of the Python exceptions `int()` can raise here. -/
inductive PyNumErr where
  | typeErr
  | valueErr
  | overflowErr
deriving Repr, DecidableEq

/-- Decimal digit count of an integer's absolute value. -/
def numDigitsInt (m : Int) : Nat := (toString m.natAbs).length

/-- Python `int()` of a float given as exact decimal `m * 10 ^ e`:
truncation toward zero; magnitudes from `10 ^ 309` model the literals
Python's float parser turns into infinity, where `int()` raises
`OverflowError`. -/
def pyIntOfFloat (m e : Int) : Except Unit Int :=
  if m = 0 then .ok 0
  else
    let nd : Int := (numDigitsInt m : Int)
    if 309 ≤ nd - 1 + e then .error ()
    else if 0 ≤ e then .ok (m * (10 : Int) ^ e.toNat)
    else if e + nd ≤ 0 then .ok 0
    else .ok (m.tdiv ((10 : Int) ^ (-e).toNat))

/-- Python `int()` of a string: optional surrounding whitespace, optional
sign, decimal digits with single underscores allowed between digits. -/
def pyIntDigitsAux : List Char → Option (List Char)
  | [] => some []
  | '_' :: d :: t =>
    if d.isDigit then (pyIntDigitsAux t).map (fun r => d :: r) else none
  | ['_'] => none
  | d :: t =>
    if d.isDigit then (pyIntDigitsAux t).map (fun r => d :: r) else none

/-- Python `int(s)` for a string argument (`None` models `ValueError`). -/
def pyIntString (s : String) : Option Int :=
  let cs := stripChars s.toList
  let sgn : Bool × List Char := match cs with
    | '-' :: t => (true, t)
    | '+' :: t => (false, t)
    | _ => (false, cs)
  match sgn.2 with
  | [] => none
  | d :: t =>
    if d.isDigit then
      match pyIntDigitsAux t with
      | some ds => some (if sgn.1 then -(digitsToInt (d :: ds)) else digitsToInt (d :: ds))
      | none => none
    else none

/-- Python `int(x)` on a decoded JSON value (`jnull` is handled by the
caller before this point in the source). -/
def pyIntOfJ : J → Except PyNumErr Int
  | .jbool b => .ok (if b then 1 else 0)
  | .jint n => .ok n
  | .jfloat m e =>
    (match pyIntOfFloat m e with
     | .ok v => .ok v
     | .error _ => .error .overflowErr)
  | .jnan => .error .valueErr
  | .jinf _ => .error .overflowErr
  | .jstr s =>
    (match pyIntString s with
     | some v => .ok v
     | none => .error .valueErr)
  | .jarr _ => .error .typeErr
  | .jobj _ => .error .typeErr
  | .jnull => .error .typeErr

/-! ## Rating parser (`_parse_ollama_nota_response`, l1_dashboard.py:849) -/

/-- Value of the `comentario` slot of a parse result.  The JSON strategy
can propagate a non-empty JSON array through Python's slice `[:60]` (lists
are sliceable); every other path yields a string. -/
inductive CVal where
  | str (s : String)
  | jlist (xs : List J)

/-- Result record (`{'nota': ..., 'comentario': ...}`) of the parser.
The `nota` field is `0` exactly on the sentinel path of the JSON strategy. -/
structure NotaRes where
  nota : Int
  com : CVal

/-- Python `com or 'OK'` for strings. -/
def orOK (s : String) : String := if s = "" then "OK" else s

/-- Match of `^\s*([1-5])\s*[-.:]\s*(.+)$` (with `re.DOTALL`) returning
the digit and group 2.  With greedy `\s*`, group 2 is the text from the
first non-whitespace character after the separator to the end; when all
of it is whitespace the quantifier backtracks, leaving one character. -/
def matchDigitSepLine (cs : List Char) : Option (Int × String) :=
  match cs.dropWhile isPyWs with
  | d :: r1 =>
    if '1' ≤ d && d ≤ '5' then
      match r1.dropWhile isPyWs with
      | sep :: r3 =>
        if sep = '-' || sep = '.' || sep = ':' then
          let r4 := r3.dropWhile isPyWs
          if r4.isEmpty then
            match r3.getLast? with
            | some wch => some (digitVal d, String.mk [wch])
            | none => none
          else some (digitVal d, String.mk r4)
        else none
      | [] => none
    else none
  | [] => none

/-- Match of `^\s*([1-5])\s*$`. -/
def matchBareDigit (cs : List Char) : Option Int :=
  match cs.dropWhile isPyWs with
  | d :: rest =>
    if ('1' ≤ d && d ≤ '5') && rest.all isPyWs then some (digitVal d) else none
  | [] => none

/-- Per-line application of the two patterns above (the loop over
`content.split('\n')`, l1_dashboard.py:866). -/
def lineHit (line : String) : Option NotaRes :=
  let l := pyStrip line
  match matchDigitSepLine l.toList with
  | some p => some ⟨p.1, .str (orOK (pyTake 60 (pyStrip p.2)))⟩
  | none =>
    match matchBareDigit l.toList with
    | some n => some ⟨n, .str "OK"⟩
    | none => none

/-- Processing of one <code>```</code>-delimited part: strip, drop a
leading `json` tag, strip again (l1_dashboard.py:879). -/
def fenceProcess (p : String) : String :=
  let p1 := pyStrip p
  if pyStarts "json" (pyLower p1) then pyStrip (String.mk (p1.toList.drop 4)) else p1

/-- Markdown code-fence removal (l1_dashboard.py:877): the first part
whose processed form starts with `{` replaces the content. -/
def fenceExtract (content : String) : String :=
  if pyIn "```" content then
    match (pySplit "```" content).find? (fun p => pyStarts "\x7b" (fenceProcess p)) with
    | some p => fenceProcess p
    | none => content
  else content

/-- Manual balanced-brace scanner (l1_dashboard.py:887), starting at the
first `{` with depth 0, honouring quoted strings and escapes; returns the
consumed slice when the depth returns to 0. -/
def braceScan : List Char → Nat → Option Char → Bool → List Char → Option (List Char)
  | [], _, _, _, _ => none
  | c :: t, depth, inStr, esc, acc =>
    if esc then braceScan t depth inStr false (c :: acc)
    else if inStr.isSome && c = '\\' then braceScan t depth inStr true (c :: acc)
    else
      match inStr with
      | some q =>
        if c = q then braceScan t depth none false (c :: acc)
        else braceScan t depth (some q) false (c :: acc)
      | none =>
        if c = '"' || c = '\'' then braceScan t depth (some c) false (c :: acc)
        else if c = '{' then braceScan t (depth + 1) none false (c :: acc)
        else if c = '}' then
          if depth = 1 then some ((c :: acc).reverse)
          else braceScan t (depth - 1) none false (c :: acc)
        else braceScan t depth none false (c :: acc)

/-- Replacement of the content by its first balanced `{...}` slice when
one exists (the scan starts at a `{`, so the depth never goes negative). -/
def braceExtract (content : String) : String :=
  let cs := content.toList
  let pre := cs.takeWhile (fun c => c ≠ '{')
  if pre.length = cs.length then content
  else
    match braceScan (cs.drop pre.length) 0 none false [] with
    | some inner => String.mk inner
    | none => content

/-- Outcome of the `json.loads` strategy (l1_dashboard.py:920): a returned
record, an uncaught exception (`AttributeError` on a non-dict,
`OverflowError` on an infinite float), or fall-through to the regex
fallbacks (`JSONDecodeError`, or `TypeError` from slicing the comment). -/
inductive JsonStep where
  | ret (r : NotaRes)
  | raiseExc
  | fallthrough

/-- Extraction and clamping of the `nota` field of the decoded object
(l1_dashboard.py:922): `error` is an uncaught `OverflowError` from
`int()` of an infinite float. -/
def jsonNotaStep (fields : List (String × J)) : Except Unit (Option Int) :=
  match jGetObj fields "nota" with
  | none => .ok none
  | some J.jnull => .ok none
  | some nv =>
    match pyIntOfJ nv with
    | .ok k => .ok (some (max 1 (min 5 k)))
    | .error .typeErr => .ok none
    | .error .valueErr => .ok none
    | .error .overflowErr => .error ()

/-- Extraction of the `comentario` field (l1_dashboard.py:930): `error`
is the `TypeError` of slicing a truthy non-string non-list, caught by the
surrounding `except`. -/
def jsonComStep (fields : List (String × J)) : Except Unit CVal :=
  match jGetObj fields "comentario" with
  | none => .ok (.str "")
  | some cv =>
    if !jTruthy cv then .ok (.str "")
    else
      match cv with
      | .jstr s => .ok (.str (pyTake 60 s))
      | .jarr xs => .ok (.jlist (xs.take 60))
      | _ => .error ()

/-- Translation of the `try: data = json.loads(content) ...` block. -/
def jsonBranch (content : String) : JsonStep :=
  match jsonLoads content with
  | none => .fallthrough
  | some (J.jobj fields) =>
    (match jsonNotaStep fields with
     | .error _ => .raiseExc
     | .ok notaOpt =>
       match jsonComStep fields with
       | .error _ => .fallthrough
       | .ok (.str s) => .ret ⟨notaOpt.getD 0, .str (orOK s)⟩
       | .ok (.jlist xs) => .ret ⟨notaOpt.getD 0, .jlist xs⟩)
  | some _ => .raiseExc

/-- Leftmost-start regex search: try the matcher on every suffix. -/
def searchPos {α : Type} (f : List Char → Option α) : List Char → Option α
  | [] => f []
  | c :: t =>
    match f (c :: t) with
    | some a => some a
    | none => searchPos f t

/-- Leftmost-start search threading the previous character (for `\b`). -/
def searchPosB {α : Type} (f : Option Char → List Char → Option α) :
    Option Char → List Char → Option α
  | prev, [] => f prev []
  | prev, c :: t =>
    match f prev (c :: t) with
    | some a => some a
    | none => searchPosB f (some c) t

/-- Case-insensitive literal prefix (pattern given lowercase); returns the
remainder on success. -/
def ciPrefix : List Char → List Char → Option (List Char)
  | [], rest => some rest
  | _ :: _, [] => none
  | p :: ps, c :: t => if pyLowerChar c = p then ciPrefix ps t else none

/-- Word boundary against the preceding character. -/
def boundaryBefore (prev : Option Char) : Bool :=
  match prev with
  | none => true
  | some c => !isWordChar c

/-- Word boundary against the following text. -/
def boundaryAfter (rest : List Char) : Bool :=
  match rest with
  | [] => true
  | c :: _ => !isWordChar c

/-- Matcher of `"nota"\s*:\s*["\']?(\d+)["\']?` (case-insensitive) at one
position (l1_dashboard.py:935); returns the digits' value. -/
def matchNotaFrag (cs : List Char) : Option Int :=
  match ciPrefix "\"nota\"".toList cs with
  | none => none
  | some r1 =>
    match r1.dropWhile isPyWs with
    | ':' :: r3 =>
      let r4 := r3.dropWhile isPyWs
      let r5 := match r4 with
        | '"' :: t => t
        | '\'' :: t => t
        | _ => r4
      let ds := r5.takeWhile Char.isDigit
      if ds.isEmpty then none else some (digitsToInt ds)
    | _ => none

/-- Group tokenizer of `((?:[^"\\]|\\.)*)"`: without `re.DOTALL` the `.`
of `\\.` does not match a newline, failing the whole match there. -/
def grabGroup : List Char → List Char → Option String
  | _, [] => none
  | acc, '"' :: _ => some (String.mk acc.reverse)
  | acc, '\\' :: c :: t =>
    if c = '\n' then none else grabGroup (c :: '\\' :: acc) t
  | _, ['\\'] => none
  | acc, c :: t => grabGroup (c :: acc) t

/-- Matcher of `"comentario"\s*:\s*"((?:[^"\\]|\\.)*)"` (case-insensitive)
at one position (l1_dashboard.py:939). -/
def matchComentFrag (cs : List Char) : Option String :=
  match ciPrefix "\"comentario\"".toList cs with
  | none => none
  | some r1 =>
    match r1.dropWhile isPyWs with
    | ':' :: r3 =>
      (match r3.dropWhile isPyWs with
       | '"' :: r5 => grabGroup [] r5
       | _ => none)
    | _ => none

/-- Python `.replace('\\"', '"')` (left-to-right, non-overlapping). -/
def replaceEscQuote : List Char → List Char
  | '\\' :: '"' :: t => '"' :: replaceEscQuote t
  | c :: t => c :: replaceEscQuote t
  | [] => []

/-- Matcher of `nota\s*[=:]\s*["\']?([1-5])["\']?` (case-insensitive). -/
def matchNotaEq (cs : List Char) : Option Int :=
  match ciPrefix "nota".toList cs with
  | none => none
  | some r1 =>
    match r1.dropWhile isPyWs with
    | c :: r3 =>
      if c = '=' || c = ':' then
        let r4 := r3.dropWhile isPyWs
        let r5 := match r4 with
          | '"' :: t => t
          | '\'' :: t => t
          | _ => r4
        match r5 with
        | d :: _ => if '1' ≤ d && d ≤ '5' then some (digitVal d) else none
        | [] => none
      else none
    | [] => none

/-- Matcher of `["\']nota["\']\s*:\s*([1-5])\b` (case-insensitive). -/
def matchQuotedNota (cs : List Char) : Option Int :=
  match cs with
  | q :: r1 =>
    if q = '"' || q = '\'' then
      match ciPrefix "nota".toList r1 with
      | some (q2 :: r2) =>
        if q2 = '"' || q2 = '\'' then
          match r2.dropWhile isPyWs with
          | ':' :: r4 =>
            (match r4.dropWhile isPyWs with
             | d :: rest =>
               if ('1' ≤ d && d ≤ '5') && boundaryAfter rest then some (digitVal d)
               else none
             | [] => none)
          | _ => none
        else none
      | _ => none
    else none
  | [] => none

/-- Matcher of `\b([1-5])\s*/\s*5`. -/
def matchFracFive (prev : Option Char) (cs : List Char) : Option Int :=
  match cs with
  | d :: r1 =>
    if ('1' ≤ d && d ≤ '5') && boundaryBefore prev then
      match r1.dropWhile isPyWs with
      | '/' :: r3 =>
        (match r3.dropWhile isPyWs with
         | '5' :: _ => some (digitVal d)
         | _ => none)
      | _ => none
    else none
  | [] => none

/-- Matcher of `\bnota\s+([1-5])\b` (case-insensitive). -/
def matchNotaSpace (prev : Option Char) (cs : List Char) : Option Int :=
  if !boundaryBefore prev then none
  else
    match ciPrefix "nota".toList cs with
    | some r1 =>
      let ws := r1.takeWhile isPyWs
      if ws.isEmpty then none
      else
        match r1.drop ws.length with
        | d :: rest =>
          if ('1' ≤ d && d ≤ '5') && boundaryAfter rest then some (digitVal d) else none
        | [] => none
    | none => none

/-- Matcher of `\b([1-5])\b`. -/
def matchLoneDigit (prev : Option Char) (cs : List Char) : Option Int :=
  match cs with
  | d :: rest =>
    if ('1' ≤ d && d ≤ '5') && boundaryBefore prev && boundaryAfter rest then
      some (digitVal d)
    else none
  | [] => none

/-- Translation of `_parse_ollama_nota_response` (l1_dashboard.py:849).
`Except.error ()` models an exception escaping the function (the source
catches only `JSONDecodeError` and `TypeError` around the JSON strategy);
`Except.ok none` is the Python `None` return. -/
def parseNota (content0 : String) : Except Unit (Option NotaRes) :=
  if content0 = "" then .ok none else
  let content := pyStrip content0
  match matchDigitSepLine content.toList with
  | some p => .ok (some ⟨p.1, .str (orOK (pyTake 60 (pyStrip p.2)))⟩)
  | none =>
  match matchBareDigit content.toList with
  | some n => .ok (some ⟨n, .str "OK"⟩)
  | none =>
  match (pySplit "\n" content).findSome? lineHit with
  | some r => .ok (some r)
  | none =>
  let content2 := braceExtract (fenceExtract content)
  match jsonBranch content2 with
  | .ret r => .ok (some r)
  | .raiseExc => .error ()
  | .fallthrough =>
  match searchPos matchNotaFrag content2.toList with
  | some v =>
    let nota := max 1 (min 5 v)
    let com := match searchPos matchComentFrag content2.toList with
      | some s => pyTake 60 (String.mk (replaceEscQuote s.toList))
      | none => ""
    .ok (some ⟨nota, .str (pyTake 60 (orOK com))⟩)
  | none =>
  match searchPos matchNotaEq content2.toList with
  | some n => .ok (some ⟨n, .str "OK"⟩)
  | none =>
  match searchPos matchQuotedNota content2.toList with
  | some n => .ok (some ⟨n, .str "OK"⟩)
  | none =>
  match searchPosB matchFracFive none content2.toList with
  | some n => .ok (some ⟨n, .str "OK"⟩)
  | none =>
  match searchPosB matchNotaSpace none content2.toList with
  | some n => .ok (some ⟨n, .str "OK"⟩)
  | none =>
  let cs := content2.toList
  match searchPosB matchLoneDigit none (cs.drop (cs.length - 300)) with
  | some n => .ok (some ⟨n, .str "OK"⟩)
  | none =>
  match searchPosB matchLoneDigit none cs with
  | some n => .ok (some ⟨n, .str "OK"⟩)
  | none => .ok none

/-! ## Request executor (`get_issue_note_from_ollama`, l1_dashboard.py:959)

HTTP traffic is abstracted by an oracle indexed by the number of requests
already issued: `netFail` models `requests` raising `ConnectionError` or
`Timeout`, `pyExc` any other exception from the request call itself, and
`resp code body` a response whose `.json()` either raises (`jerr`) or
yields a decoded value.  Prompt construction and the collaborator calls
that feed it (`fetch_issue_sla`, comments) do not influence the control
flow modelled here and are omitted. -/

/-- Endpoint shapes, in the fixed order the source tries them. -/
inductive Shape where
  | gen
  | chat
  | oai
deriving Repr, DecidableEq

/-- Body of an HTTP response: `r.json()` raising, or a decoded value. -/
inductive JBody where
  | jerr
  | jval (v : J)

/-- Outcome of one HTTP request. -/
inductive Outcome where
  | netFail
  | pyExc
  | resp (code : Nat) (body : JBody)

/-- World model: the outcome of the `n`-th HTTP request of the run. -/
def Oracle := Nat → Outcome

/-- One judgment (`{'nota': ..., 'comentario': ...}`). -/
structure Judg where
  nota : Option Int
  comentario : CVal

/-- Failure comments of `_fail`, verbatim from the source. -/
def failMsgNoUrl : String := "Não avaliado (OLLAMA_URL não configurado)"

/-- Comment for a 404 on the discovery endpoint. -/
def failMsgNotDaemon : String :=
  "Não avaliado (Ollama: URL não é o daemon Ollama — verifique OLLAMA_URL, ex: http://127.0.0.1:11434)"

/-- Comment for exhausted connection errors / timeouts. -/
def failMsgTimeout : String := "Não avaliado (Ollama indisponível ou timeout)"

/-- Comment when every shape of every model returned 404. -/
def failMsg404 : String :=
  "Não avaliado (Ollama: /api/generate, /api/chat e /v1/chat/completions não encontrados — verifique OLLAMA_URL, ex: http://127.0.0.1:11434)"

/-- Comment when no model produced a parsable rating. -/
def failMsgNoModel : String :=
  "Não avaliado (Ollama sem modelo compatível ou resposta inválida)"

/-- Build the `_fail` judgment. -/
def failJudg (msg : String) : Judg := ⟨none, .str msg⟩

/-- Python `(x or '').strip()` on an optional JSON field: falsy values
give `''`, strings are stripped, any other truthy value raises
`AttributeError` (modelled as `error`). -/
def pyStrOrEmpty (v : Option J) : Except Unit String :=
  match v with
  | none => .ok ""
  | some jv =>
    if !jTruthy jv then .ok ""
    else
      match jv with
      | .jstr s => .ok (pyStrip s)
      | _ => .error ()

/-- Text extraction for the `/api/generate` shape
(`(data.get('response') or '').strip()`, l1_dashboard.py:1046). -/
def extractGen (v : J) : Except Unit String :=
  match v with
  | .jobj fields => pyStrOrEmpty (jGetObj fields "response")
  | _ => .error ()

/-- Text extraction for the `/api/chat` shape
(`msg = data.get('message') or {}`, l1_dashboard.py:1079). -/
def extractChat (v : J) : Except Unit String :=
  match v with
  | .jobj fields =>
    (match jGetObj fields "message" with
     | none => .ok ""
     | some mv =>
       if !jTruthy mv then .ok ""
       else
         match mv with
         | .jobj mf => pyStrOrEmpty (jGetObj mf "content")
         | _ => .error ())
  | _ => .error ()

/-- Text extraction for the `/v1/chat/completions` shape
(l1_dashboard.py:1112): a truthy `error` field, like any raised
exception, breaks out of the shape (`error`); falsy `choices` falls
through to the retry path (`ok ""`). -/
def extractOai (v : J) : Except Unit String :=
  match v with
  | .jobj fields =>
    if ((jGetObj fields "error").map jTruthy).getD false then .error ()
    else
      match jGetObj fields "choices" with
      | none => .ok ""
      | some cv =>
        if !jTruthy cv then .ok ""
        else
          match cv with
          | .jarr (h :: _) =>
            (match h with
             | .jobj hf =>
               (match jGetObj hf "message" with
                | none => .ok ""
                | some mv =>
                  if !jTruthy mv then .ok ""
                  else
                    match mv with
                    | .jobj mf => pyStrOrEmpty (jGetObj mf "content")
                    | _ => .error ())
             | _ => .error ())
          | _ => .error ()
  | _ => .error ()

/-- Shape-indexed extraction. -/
def extractFor : Shape → J → Except Unit String
  | .gen => extractGen
  | .chat => extractChat
  | .oai => extractOai

/-- Classification of one attempt's non-network outcome. -/
inductive AttemptEv where
  | e404
  | brk
  | retry
  | found (j : Judg)

/-- Classification of an HTTP response inside the attempt loop: 404 sets
the flag and breaks; a 200 whose body decodes feeds the rating parser,
returning only under the guard `result.get('nota') and
1 <= result.get('nota') <= 5`; a raising parser (or `.json()`) is caught
by the bare `except Exception` and breaks; everything else retries. -/
def classifyResp (sh : Shape) (code : Nat) (body : JBody) : AttemptEv :=
  if code = 404 then .e404
  else if code = 200 then
    match body with
    | .jerr => .brk
    | .jval v =>
      match extractFor sh v with
      | .error _ => .brk
      | .ok s =>
        if s = "" then .retry
        else
          match parseNota s with
          | .error _ => .brk
          | .ok none => .retry
          | .ok (some r) =>
            if r.nota ≠ 0 && decide (1 ≤ r.nota) && decide (r.nota ≤ 5) then
              .found ⟨some r.nota, r.com⟩
            else .retry
  else .retry

/-- Result of a whole per-shape attempt loop. -/
inductive ShapeRes where
  | found (j : Judg)
  | unreachable
  | nextShape (got404 : Bool)

/-- The per-shape retry loop (`for attempt in range(max_retries + 1)`,
l1_dashboard.py:1034): `n` counts the attempts remaining after the
current one (initially `max_retries = 4`); a network failure on the last
attempt returns the service-unreachable abort. -/
def attemptLoop (o : Oracle) (sh : Shape) : Nat → Nat → ShapeRes × Nat
  | 0, c =>
    (match o c with
     | .netFail => (.unreachable, c + 1)
     | .pyExc => (.nextShape false, c + 1)
     | .resp code body =>
       match classifyResp sh code body with
       | .e404 => (.nextShape true, c + 1)
       | .brk => (.nextShape false, c + 1)
       | .found j => (.found j, c + 1)
       | .retry => (.nextShape false, c + 1))
  | n + 1, c =>
    (match o c with
     | .netFail => attemptLoop o sh n (c + 1)
     | .pyExc => (.nextShape false, c + 1)
     | .resp code body =>
       match classifyResp sh code body with
       | .e404 => (.nextShape true, c + 1)
       | .brk => (.nextShape false, c + 1)
       | .found j => (.found j, c + 1)
       | .retry => attemptLoop o sh n (c + 1))

/-- The fixed shape order per model. -/
def shapesOrder : List Shape := [.gen, .chat, .oai]

/-- Outcome of trying all shapes of one model. -/
inductive ModelStep where
  | found (j : Judg)
  | unreachable
  | next (got404 : Bool)

/-- Try the remaining shapes of the current model in order, threading the
sticky `got_404` flag. -/
def tryShapes (o : Oracle) : List Shape → Nat → Bool → ModelStep × Nat
  | [], c, g4 => (.next g4, c)
  | sh :: rest, c, g4 =>
    match attemptLoop o sh 4 c with
    | (.found j, c2) => (.found j, c2)
    | (.unreachable, c2) => (.unreachable, c2)
    | (.nextShape b, c2) => tryShapes o rest c2 (g4 || b)

/-- Loop over candidate models (l1_dashboard.py:1029); when all are
exhausted the final judgment depends on whether any 404 was seen. -/
def tryModels (o : Oracle) : List String → Nat → Bool → Judg × Nat
  | [], c, g4 => ((if g4 then failJudg failMsg404 else failJudg failMsgNoModel), c)
  | m :: ms, c, g4 =>
    if m = "" then tryModels o ms c g4
    else
      match tryShapes o shapesOrder c g4 with
      | (.found j, c2) => (j, c2)
      | (.unreachable, c2) => (failJudg failMsgTimeout, c2)
      | (.next g4b, c2) => tryModels o ms c2 g4b

/-- Name extraction for one entry of the discovery listing
(`(item.get('name') or item.get('model') or '').strip()`). -/
def itemName (item : J) : Except Unit String :=
  match item with
  | .jobj fs =>
    let pick : Option J :=
      match jGetObj fs "name" with
      | some v =>
        if jTruthy v then some v
        else
          (match jGetObj fs "model" with
           | some w => if jTruthy w then some w else none
           | none => none)
      | none =>
        match jGetObj fs "model" with
        | some w => if jTruthy w then some w else none
        | none => none
    match pick with
    | none => .ok ""
    | some (.jstr s) => .ok (pyStrip s)
    | some _ => .error ()
  | _ => .error ()

/-- Fold over the discovery item list: an exception mid-loop is caught by
`except Exception: pass`, keeping the names appended so far. -/
def collectInstalled : List J → List String → List String
  | [], acc => acc
  | item :: rest, acc =>
    match itemName item with
    | .error _ => acc
    | .ok "" => collectInstalled rest acc
    | .ok n => if acc.contains n then collectInstalled rest acc
               else collectInstalled rest (acc ++ [n])

/-- Result of the discovery call (`GET {base}/api/tags`). -/
inductive DiscRes where
  | abort (j : Judg)
  | proceed (installed : List String)

/-- Handling of the discovery outcome (l1_dashboard.py:981): 404 and
network failures abort the whole evaluation; every other problem is
swallowed and the run proceeds with an empty installed list. -/
def discovery (out : Outcome) : DiscRes :=
  match out with
  | .netFail => .abort (failJudg failMsgTimeout)
  | .pyExc => .proceed []
  | .resp code body =>
    if code = 404 then .abort (failJudg failMsgNotDaemon)
    else if code = 200 then
      match body with
      | .jerr => .proceed []
      | .jval (J.jobj fs) =>
        (match jGetObj fs "models" with
         | none => .proceed []
         | some mv =>
           if !jTruthy mv then .proceed []
           else
             match mv with
             | .jarr items => .proceed (collectInstalled items [])
             | _ => .proceed [])
      | .jval _ => .proceed []
    else .proceed []

/-- The static fallback model list after the default model
(l1_dashboard.py:1020). -/
def staticFallback : List String :=
  ["llama3.2", "llama3.1", "llama3", "qwen2.5:0.5b", "qwen2.5", "mistral", "gemma2:2b"]

/-- Deduplicating, stripping, empty-dropping accumulation of candidate
model names (`seen` / `models_to_try`, l1_dashboard.py:1021). -/
def dedupStrip : List String → List String → List String
  | [], acc => acc
  | x :: t, acc =>
    let n := pyStrip x
    if n = "" || acc.contains n then dedupStrip t acc else dedupStrip t (acc ++ [n])

/-- Candidate list: installed models first, then the default model and
the static fallbacks, first occurrence kept. -/
def modelsToTry (installed : List String) (defaultModel : String) : List String :=
  dedupStrip (installed ++ defaultModel :: staticFallback) []

/-- Default model resolution (`model = (model or 'llama3.2').strip()`). -/
def resolveModel (model : Option String) : String :=
  pyStrip (match model with
           | none => "llama3.2"
           | some m => if m = "" then "llama3.2" else m)

/-- Translation of `get_issue_note_from_ollama` starting at request
counter `c0`; returns the judgment and the final request counter. -/
def getIssueNote (o : Oracle) (c0 : Nat) (url : String) (model : Option String) :
    Judg × Nat :=
  if pyStrip url = "" then (failJudg failMsgNoUrl, c0)
  else
    match discovery (o c0) with
    | .abort j => (j, c0 + 1)
    | .proceed installed =>
      tryModels o (modelsToTry installed (resolveModel model)) (c0 + 1) false

/-! ## Deterministic rule-based scorer (`get_issue_note_rule_based`,
l1_dashboard.py:712)

Only the features the scoring reads are modelled; Python's floats are
modelled as exact rationals, which can move a boundary case to the
neighbouring branch but keeps every branch's rating, the property used
here. -/

/-- Features extracted from a ticket by the rule-based scorer. -/
structure IssueFeat where
  lenTitle : Nat
  lenDesc : Nat
  secFirst : Option Int
  secResol : Option Int

/-- Translation of `get_issue_note_rule_based`. -/
def ruleBased (f : IssueFeat) : Int × String :=
  let ptsTexto : ℚ :=
    if 20 ≤ f.lenTitle ∧ 200 ≤ f.lenDesc then 2
    else if 10 ≤ f.lenTitle ∧ 50 ≤ f.lenDesc then 13 / 10
    else if 5 ≤ f.lenTitle ∨ 20 ≤ f.lenDesc then 7 / 10
    else 1 / 5
  let ptsResposta : ℚ :=
    match f.secFirst with
    | some s =>
      if 0 ≤ s then
        (if (s : ℚ) / 3600 ≤ 1 then 3 / 2
         else if (s : ℚ) / 3600 ≤ 4 then 6 / 5
         else if (s : ℚ) / 3600 ≤ 24 then 4 / 5
         else 2 / 5)
      else 3 / 10
    | none => 3 / 10
  let ptsSolucao : ℚ :=
    match f.secResol with
    | some s =>
      if (s : ℚ) / 3600 ≤ 24 then 3 / 2
      else if (s : ℚ) / 3600 ≤ 72 then 6 / 5
      else if (s : ℚ) / 3600 ≤ 168 then 4 / 5
      else 1 / 2
    | none => 3 / 10
  let total := ptsTexto + ptsResposta + ptsSolucao
  if 7 / 2 ≤ total then (5, pyTake 200 "Alto: texto completo, resposta e solução rápidas.")
  else if 14 / 5 ≤ total then (4, pyTake 200 "Bom: atendimento e solução dentro do esperado.")
  else if 2 ≤ total then (3, pyTake 200 "Médio: algum critério (texto, resposta ou solução) pode melhorar.")
  else if 6 / 5 ≤ total then (2, pyTake 200 "Abaixo: texto incompleto ou tempos de resposta/solução altos.")
  else (1, pyTake 200 "Baixo: ticket vago ou sem dados de resposta/solução.")

/-! ## Evaluation loop controller and judgment cache
(`l1_dashboard_web.py`) -/

/-- Cache entry as the controller holds it in memory: optional rating and
comment (the comment keeps the parser's `CVal` since a JSON-array comment
can reach this point). -/
def EntryC := Option Int × CVal

/-- Durable store: one row per (stripped, non-empty) issue key with a
nullable rating and a text comment. -/
def DB := List (String × (Option Int × String))

/-- Association-list lookup (Python `dict.get`). -/
def alookup {α : Type} (l : List (String × α)) (k : String) : Option α :=
  (l.find? (fun p => p.1 = k)).map (fun p => p.2)

/-- Association-list insert-or-replace (Python `dict.__setitem__` /
SQLite `INSERT OR REPLACE`): replace in place on the first matching key
(keys are unique in every map built here), append otherwise. -/
def ainsert {α : Type} : List (String × α) → String → α → List (String × α)
  | [], k, v => [(k, v)]
  | p :: t, k, v => if p.1 = k then (k, v) :: t else p :: ainsert t k v

/-- Translation of `_nota_is_evaluated` (l1_dashboard_web.py:1934). -/
def entryEval (e : EntryC) : Bool :=
  match e.1 with
  | some n => decide (1 ≤ n) && decide (n ≤ 5)
  | none => false

/-- The same test on a `Judg`. -/
def judgEval (j : Judg) : Bool :=
  match j.nota with
  | some n => decide (1 ≤ n) && decide (n ≤ 5)
  | none => false

/-- A comment value SQLite cannot bind (a non-empty list): its
`conn.execute` raises, the surrounding `except Exception: pass` swallows
it, and nothing is committed. -/
def entryCBad (e : EntryC) : Bool :=
  match e.2 with
  | .jlist (_ :: _) => true
  | _ => false

/-- Comment as it would be bound into the row (`(... or '')[:500]`). -/
def entryCComment (e : EntryC) : String :=
  match e.2 with
  | .str s => pyTake 500 s
  | .jlist _ => ""

/-- Translation of `_save_notas_to_db` (l1_dashboard_web.py:2046):
unconditional `INSERT OR REPLACE` per entry, skipping blank keys; any
raising row aborts the uncommitted transaction, leaving the store
unchanged. -/
def saveNotas (notas : List (String × EntryC)) (db : DB) : DB :=
  if notas.isEmpty then db
  else if notas.any (fun p => !(pyStrip p.1 = "") && entryCBad p.2) then db
  else
    notas.foldl (fun d p =>
      if pyStrip p.1 = "" then d
      else ainsert d (pyStrip p.1) (p.2.1, entryCComment p.2)) db

/-- Range-nulling of a stored rating on load (l1_dashboard_web.py:2031). -/
def rangeNull : Option Int → Option Int
  | none => none
  | some n => if n < 1 || 5 < n then none else some n

/-- Translation of `_load_notas_from_db` (l1_dashboard_web.py:2020). -/
def loadNotas (db : DB) : List (String × EntryC) :=
  db.foldl (fun acc p =>
    let k := pyStrip p.1
    if k = "" then acc
    else ainsert acc k ((rangeNull p.2.1, CVal.str (pyTake 500 p.2.2)) : EntryC)) []

/-- Initial merge for one key (l1_dashboard_web.py:1993): a valid loaded
entry wins, then a valid session-cache entry, then whichever of the two
exists, then the placeholder. -/
def initEntry (loaded cache : List (String × EntryC)) (k : String) : EntryC :=
  match alookup loaded k with
  | some v =>
    if entryEval v then v
    else
      (match alookup cache k with
       | some w => if entryEval w then w else v
       | none => v)
  | none =>
    match alookup cache k with
    | some w => w
    | none => ((none, CVal.str "—") : EntryC)

/-- State threaded through the controller loop: the in-memory judgment
map, the durable store, and the number of evaluator invocations. -/
structure LoopSt where
  out : List (String × EntryC)
  db : DB
  calls : Nat

/-- Keys still lacking a valid rating (`keys_sem_nota`). -/
def pendingOf (keys : List String) (out : List (String × EntryC)) : List String :=
  keys.filter (fun k => !(((alookup out k).map entryEval).getD false))

/-- One inner `for key in keys_sem_nota` pass: evaluate, update the map,
persist the whole map after every evaluation.  The evaluator `f` is
`_evaluate_one_issue` abstracted as a function of the invocation index
and the key (the `if not issue: continue` guard is dead: every key of the
batch has its issue in `issue_by_key`). -/
def runPassOnce (f : Nat → String → EntryC) (pending : List String) (st : LoopSt) :
    LoopSt :=
  pending.foldl (fun st k =>
    let r := f st.calls k
    let out2 := ainsert st.out k r
    ⟨out2, saveNotas out2 st.db, st.calls + 1⟩) st

/-- The outer `while keys_sem_nota` loop with explicit fuel: `none` means
the Python loop would still be running after `fuel` passes (the source
loop is unbounded). After the loop the map is saved once more. -/
def runPasses (f : Nat → String → EntryC) (keys : List String) :
    Nat → LoopSt → Option LoopSt
  | fuel, st =>
    let pending := pendingOf keys st.out
    if pending.isEmpty then some ⟨st.out, saveNotas st.out st.db, st.calls⟩
    else
      match fuel with
      | 0 => none
      | fuel' + 1 => runPasses f keys fuel' (runPassOnce f pending st)

/-- Translation of the core of `_run_evaluate_all_until_complete`
(l1_dashboard_web.py:1990): under `force_reavaliar` both the store and
the session cache are ignored. -/
def runEvalAll (force : Bool) (f : Nat → String → EntryC) (keys : List String)
    (db : DB) (cacheMap : List (String × EntryC)) (fuel : Nat) : Option LoopSt :=
  let loaded := if force then [] else loadNotas db
  let cache := if force then [] else cacheMap
  let out0 := keys.foldl (fun acc k => ainsert acc k (initEntry loaded cache k)) []
  runPasses f keys fuel ⟨out0, db, 0⟩

/-- The rule-based fallback judgment as `_evaluate_one_issue` wraps it
(`'(regras, Ollama sem resposta) ' + comentario`, truncated to 200). -/
def ruleJudg (feat : IssueFeat) : Judg :=
  ⟨some (ruleBased feat).1,
   .str (pyTake 200 ("(regras, Ollama sem resposta) " ++ (ruleBased feat).2))⟩

/-- Translation of `_evaluate_one_issue` (l1_dashboard_web.py:1942):
up to `OLLAMA_NOTAS_MAX_RETRIES` (default 5) executor runs, then the
rule-based fallback with its marker comment. -/
def evaluateOneIssue (o : Oracle) (url : String) (model : Option String)
    (feat : IssueFeat) : Nat → Nat → Judg × Nat
  | 0, c => (ruleJudg feat, c)
  | t + 1, c =>
    let rc := getIssueNote o c url model
    if judgEval rc.1 then rc
    else evaluateOneIssue o url model feat t rc.2

/-- View of a judgment as a controller cache entry. -/
def judgToEntry (j : Judg) : EntryC := (j.nota, j.comentario)

/-! ## Helper lemmas -/

theorem any_of_mem2 {α : Type} {p : α → Bool} {l : List α} {x : α}
    (hx : x ∈ l) (hp : p x = true) : l.any p = true :=
  List.any_eq_true.mpr ⟨x, hx, hp⟩

theorem filter_id_of_all {α : Type} {p : α → Bool} {l : List α}
    (h : ∀ x ∈ l, p x = true) : l.filter p = l :=
  List.filter_eq_self.mpr h

/-! ### Stage lemmas for the contradiction resolver -/

theorem rcStage1_sub {mel fort : List String} {f : String}
    (h : f ∈ rcStage1 mel fort) : f ∈ fort :=
  List.mem_of_mem_filter h

theorem rcStage1_pred {mel fort : List String} {f : String}
    (h : f ∈ rcStage1 mel fort) :
    forteContradizSla (mel.any melFrtViol) (mel.any melTtrViol) f = false := by
  have := (List.mem_filter.mp h).2
  simpa using this

theorem rcStage2_sub {fort1 mel : List String} {x : String}
    (h : x ∈ rcStage2 fort1 mel) : x ∈ mel := by
  unfold rcStage2 at h
  split at h
  · split at h
    · exact List.mem_of_mem_filter (List.mem_of_mem_filter h)
    · exact List.mem_of_mem_filter h
  · split at h
    · exact List.mem_of_mem_filter h
    · exact h

theorem rcStage2_narrowFrt {fort1 mel : List String} {x : String}
    (hx : x ∈ rcStage2 fort1 mel) (hany : fort1.any fortFrtComp = true) :
    melFrtEstNarrow x = false := by
  unfold rcStage2 at hx
  rw [if_pos hany] at hx
  split at hx
  · have := (List.mem_filter.mp (List.mem_of_mem_filter hx)).2
    simpa using this
  · have := (List.mem_filter.mp hx).2
    simpa using this

theorem rcStage2_narrowTtr {fort1 mel : List String} {x : String}
    (hx : x ∈ rcStage2 fort1 mel) (hany : fort1.any fortTtrComp = true) :
    melTtrEstNarrow x = false := by
  unfold rcStage2 at hx
  rw [if_pos hany] at hx
  have := (List.mem_filter.mp hx).2
  simpa using this

theorem rcStage3_sub {mel2 fort1 : List String} {f : String}
    (h : f ∈ rcStage3 mel2 fort1) : f ∈ fort1 := by
  unfold rcStage3 at h
  split at h
  · exact List.mem_of_mem_filter h
  · exact h

theorem rcStage3_rm {mel2 fort1 : List String} {f : String}
    (hf : f ∈ rcStage3 mel2 fort1) (h : mel2.any melCsatBaixo = true) :
    fortCsatAltoRemove f = false := by
  unfold rcStage3 at hf
  rw [if_pos h] at hf
  have := (List.mem_filter.mp hf).2
  simpa using this

theorem rcStage4_sub {fort2 mel2 : List String} {x : String}
    (h : x ∈ rcStage4 fort2 mel2) : x ∈ mel2 := by
  unfold rcStage4 at h
  split at h
  · exact List.mem_of_mem_filter h
  · exact h

theorem rcStage4_rm {fort2 mel2 : List String} {x : String}
    (hx : x ∈ rcStage4 fort2 mel2) (h : fort2.any fortCsatAltoFlag = true) :
    melCsatBaixo x = false := by
  unfold rcStage4 at hx
  rw [if_pos h] at hx
  have := (List.mem_filter.mp hx).2
  simpa using this

theorem rcStage5_sub {mel3 fort2 : List String} {f : String}
    (h : f ∈ rcStage5 mel3 fort2) : f ∈ fort2 := by
  unfold rcStage5 at h
  split at h
  · exact List.mem_of_mem_filter h
  · exact h

theorem rcStage5_rm {mel3 fort2 : List String} {f : String}
    (hf : f ∈ rcStage5 mel3 fort2) (h : mel3.any melTagsMention = true) :
    fortTagsAdequado f = false := by
  unfold rcStage5 at hf
  rw [if_pos h] at hf
  have := (List.mem_filter.mp hf).2
  simpa using this

theorem rcStage6_sub {mel3 fort3 : List String} {f : String}
    (h : f ∈ rcStage6 mel3 fort3) : f ∈ fort3 := by
  unfold rcStage6 at h
  split at h
  · exact List.mem_of_mem_filter h
  · exact h

theorem rcStage6_rm {mel3 fort3 : List String} {f : String}
    (hf : f ∈ rcStage6 mel3 fort3) (h : mel3.any melTapi = true) :
    fortTapiEntre f = false := by
  unfold rcStage6 at hf
  rw [if_pos h] at hf
  have := (List.mem_filter.mp hf).2
  simpa using this

theorem contradiz_mono {a a' b b' : Bool} {f : String}
    (ha : a' = true → a = true) (hb : b' = true → b = true)
    (h : forteContradizSla a' b' f = true) : forteContradizSla a b f = true := by
  simp only [forteContradizSla, Bool.or_eq_true, Bool.and_eq_true] at h ⊢
  tauto

theorem removeContradictions_eq (mel fort : List String)
    (hemp : ¬((mel.isEmpty && fort.isEmpty) = true)) :
    removeContradictions mel fort =
      (rcStage4 (rcStage3 (rcStage2 (rcStage1 mel fort) mel) (rcStage1 mel fort))
         (rcStage2 (rcStage1 mel fort) mel),
       rcStage6
         (rcStage4 (rcStage3 (rcStage2 (rcStage1 mel fort) mel) (rcStage1 mel fort))
            (rcStage2 (rcStage1 mel fort) mel))
         (rcStage5
            (rcStage4 (rcStage3 (rcStage2 (rcStage1 mel fort) mel) (rcStage1 mel fort))
               (rcStage2 (rcStage1 mel fort) mel))
            (rcStage3 (rcStage2 (rcStage1 mel fort) mel) (rcStage1 mel fort)))) := by
  unfold removeContradictions
  rw [if_neg hemp]

/-- C3: after a single pass of `_remove_contradictions`, for each of the
five indicator axes (FRT, TTR, CSAT, tags, TAPI) no violation assertion
survives in the NEGATIVE (`melhorias`) output while a compliance
assertion of the same indicator survives in the POSITIVE (`fortes`)
output — each predicate being the source's own keyword pattern — and the
output is a fixed point of the pass, so one pass suffices. -/
theorem c3_contradiction_resolution (mel fort : List String) :
    (¬((∃ m ∈ (removeContradictions mel fort).1, melFrtViol m = true) ∧
       (∃ f ∈ (removeContradictions mel fort).2, fortFrtComp f = true))) ∧
    (¬((∃ m ∈ (removeContradictions mel fort).1, melTtrViol m = true) ∧
       (∃ f ∈ (removeContradictions mel fort).2, fortTtrComp f = true))) ∧
    (¬((∃ m ∈ (removeContradictions mel fort).1, melCsatBaixo m = true) ∧
       (∃ f ∈ (removeContradictions mel fort).2, fortCsatAltoRemove f = true))) ∧
    (¬((∃ m ∈ (removeContradictions mel fort).1, melTagsMention m = true) ∧
       (∃ f ∈ (removeContradictions mel fort).2, fortTagsAdequado f = true))) ∧
    (¬((∃ m ∈ (removeContradictions mel fort).1, melTapi m = true) ∧
       (∃ f ∈ (removeContradictions mel fort).2, fortTapiEntre f = true))) ∧
    removeContradictions (removeContradictions mel fort).1
        (removeContradictions mel fort).2
      = removeContradictions mel fort := by
  by_cases hemp : (mel.isEmpty && fort.isEmpty) = true
  · have hand : mel.isEmpty = true ∧ fort.isEmpty = true := by simpa using hemp
    have hm : mel = [] := by simpa using hand.1
    have hf : fort = [] := by simpa using hand.2
    subst hm
    subst hf
    refine ⟨?_, ?_, ?_, ?_, ?_, ?_⟩ <;> simp [removeContradictions]
  · have h0 := removeContradictions_eq mel fort hemp
    set fort1 := rcStage1 mel fort with hf1
    set mel2 := rcStage2 fort1 mel with hm2
    set fort2 := rcStage3 mel2 fort1 with hf2
    set mel3 := rcStage4 fort2 mel2 with hm3
    set fort3 := rcStage5 mel3 fort2 with hf3
    set fort4 := rcStage6 mel3 fort3 with hf4
    have sub_m3_m2 : ∀ x ∈ mel3, x ∈ mel2 := fun x hx => rcStage4_sub hx
    have sub_m2_mel : ∀ x ∈ mel2, x ∈ mel := fun x hx => rcStage2_sub hx
    have sub_f4_f3 : ∀ f ∈ fort4, f ∈ fort3 := fun f hf => rcStage6_sub hf
    have sub_f3_f2 : ∀ f ∈ fort3, f ∈ fort2 := fun f hf => rcStage5_sub hf
    have sub_f2_f1 : ∀ f ∈ fort2, f ∈ fort1 := fun f hf => rcStage3_sub hf
    rw [h0]
    refine ⟨?_, ?_, ?_, ?_, ?_, ?_⟩
    · rintro ⟨⟨x, hx, hviol⟩, ⟨f, hfm, hcomp⟩⟩
      have hflag : mel.any melFrtViol = true :=
        any_of_mem2 (sub_m2_mel x (sub_m3_m2 x hx)) hviol
      have hpred := rcStage1_pred (sub_f2_f1 f (sub_f3_f2 f (sub_f4_f3 f hfm)))
      rw [hflag] at hpred
      simp [forteContradizSla, hcomp] at hpred
    · rintro ⟨⟨x, hx, hviol⟩, ⟨f, hfm, hcomp⟩⟩
      have hflag : mel.any melTtrViol = true :=
        any_of_mem2 (sub_m2_mel x (sub_m3_m2 x hx)) hviol
      have hpred := rcStage1_pred (sub_f2_f1 f (sub_f3_f2 f (sub_f4_f3 f hfm)))
      rw [hflag] at hpred
      simp [forteContradizSla, hcomp] at hpred
    · rintro ⟨⟨x, hx, hviol⟩, ⟨f, hfm, hcomp⟩⟩
      have hany : mel2.any melCsatBaixo = true := any_of_mem2 (sub_m3_m2 x hx) hviol
      have hrm := rcStage3_rm (sub_f3_f2 f (sub_f4_f3 f hfm)) hany
      rw [hcomp] at hrm
      cases hrm
    · rintro ⟨⟨x, hx, hviol⟩, ⟨f, hfm, hcomp⟩⟩
      have hany : mel3.any melTagsMention = true := any_of_mem2 hx hviol
      have hrm := rcStage5_rm (sub_f4_f3 f hfm) hany
      rw [hcomp] at hrm
      cases hrm
    · rintro ⟨⟨x, hx, hviol⟩, ⟨f, hfm, hcomp⟩⟩
      have hany : mel3.any melTapi = true := any_of_mem2 hx hviol
      have hrm := rcStage6_rm hfm hany
      rw [hcomp] at hrm
      cases hrm
    · show removeContradictions mel3 fort4 = (mel3, fort4)
      have monoF : mel3.any melFrtViol = true → mel.any melFrtViol = true := by
        intro h
        rcases List.any_eq_true.mp h with ⟨x, hx, hpx⟩
        exact any_of_mem2 (sub_m2_mel x (sub_m3_m2 x hx)) hpx
      have monoT : mel3.any melTtrViol = true → mel.any melTtrViol = true := by
        intro h
        rcases List.any_eq_true.mp h with ⟨x, hx, hpx⟩
        exact any_of_mem2 (sub_m2_mel x (sub_m3_m2 x hx)) hpx
      by_cases hemp2 : (mel3.isEmpty && fort4.isEmpty) = true
      · unfold removeContradictions
        rw [if_pos hemp2]
      · have hS1 : rcStage1 mel3 fort4 = fort4 := by
          unfold rcStage1
          apply filter_id_of_all
          intro f hfm
          have hp1 := rcStage1_pred (sub_f2_f1 f (sub_f3_f2 f (sub_f4_f3 f hfm)))
          cases hc : forteContradizSla (mel3.any melFrtViol) (mel3.any melTtrViol) f
          · simp
          · exfalso
            have := contradiz_mono monoF monoT hc
            rw [hp1] at this
            cases this
        have hS2 : rcStage2 fort4 mel3 = mel3 := by
          simp only [rcStage2]
          have e1 : (if fort4.any fortFrtComp = true then
              mel3.filter (fun m => ! melFrtEstNarrow m) else mel3) = mel3 := by
            split
            · apply filter_id_of_all
              intro x hx
              rcases List.any_eq_true.mp ‹fort4.any fortFrtComp = true› with ⟨f, hfm, hcf⟩
              have hd1 : fort1.any fortFrtComp = true :=
                any_of_mem2 (sub_f2_f1 f (sub_f3_f2 f (sub_f4_f3 f hfm))) hcf
              have := rcStage2_narrowFrt (sub_m3_m2 x hx) hd1
              simp [this]
            · rfl
          rw [e1]
          split
          · apply filter_id_of_all
            intro x hx
            rcases List.any_eq_true.mp ‹fort4.any fortTtrComp = true› with ⟨f, hfm, hcf⟩
            have hd1 : fort1.any fortTtrComp = true :=
              any_of_mem2 (sub_f2_f1 f (sub_f3_f2 f (sub_f4_f3 f hfm))) hcf
            have := rcStage2_narrowTtr (sub_m3_m2 x hx) hd1
            simp [this]
          · rfl
        have hS3 : rcStage3 mel3 fort4 = fort4 := by
          simp only [rcStage3]
          split
          · apply filter_id_of_all
            intro f hfm
            rcases List.any_eq_true.mp ‹mel3.any melCsatBaixo = true› with ⟨x, hx, hpx⟩
            have hany1 : mel2.any melCsatBaixo = true := any_of_mem2 (sub_m3_m2 x hx) hpx
            have := rcStage3_rm (sub_f3_f2 f (sub_f4_f3 f hfm)) hany1
            simp [this]
          · rfl
        have hS4 : rcStage4 fort4 mel3 = mel3 := by
          simp only [rcStage4]
          split
          · apply filter_id_of_all
            intro x hx
            rcases List.any_eq_true.mp ‹fort4.any fortCsatAltoFlag = true› with ⟨f, hfm, hcf⟩
            have hany1 : fort2.any fortCsatAltoFlag = true :=
              any_of_mem2 (sub_f3_f2 f (sub_f4_f3 f hfm)) hcf
            have := rcStage4_rm hx hany1
            simp [this]
          · rfl
        have hS5 : rcStage5 mel3 fort4 = fort4 := by
          simp only [rcStage5]
          split
          · apply filter_id_of_all
            intro f hfm
            have := rcStage5_rm (sub_f4_f3 f hfm) ‹mel3.any melTagsMention = true›
            simp [this]
          · rfl
        have hS6 : rcStage6 mel3 fort4 = fort4 := by
          simp only [rcStage6]
          split
          · apply filter_id_of_all
            intro f hfm
            have := rcStage6_rm hfm ‹mel3.any melTapi = true›
            simp [this]
          · rfl
        have h2 := removeContradictions_eq mel3 fort4 hemp2
        rw [h2, hS1, hS2, hS3, hS4, hS5, hS6]

theorem removeC_no_bundle {mel fort : List String} {s : String}
    (h : s ∈ (removeContradictions mel fort).2) :
    ¬(pyIn "ttr" (nfNorm s) = true ∧ pyIn "frt" (nfNorm s) = true) := by
  rintro ⟨h1, h2⟩
  by_cases hemp : (mel.isEmpty && fort.isEmpty) = true
  · have hf : fort = [] := by
      have hand : mel.isEmpty = true ∧ fort.isEmpty = true := by simpa using hemp
      simpa using hand.2
    unfold removeContradictions at h
    rw [if_pos hemp] at h
    rw [hf] at h
    cases h
  · rw [removeContradictions_eq mel fort hemp] at h
    have hf1 : s ∈ rcStage1 mel fort := rcStage3_sub (rcStage5_sub (rcStage6_sub h))
    have hpred := rcStage1_pred hf1
    simp [forteContradizSla, h1, h2] at hpred

theorem parsePontos_no_bundle {content s : String}
    (h : s ∈ (parsePontos content).fortes) :
    ¬(pyIn "ttr" (nfNorm s) = true ∧ pyIn "frt" (nfNorm s) = true) := by
  by_cases hc : content = ""
  · rw [hc] at h
    cases h
  · simp only [parsePontos, if_neg hc] at h
    exact removeC_no_bundle (List.take_subset 5 _ h)

/-- C4: a `fortes` statement whose normalized text mentions both `ttr`
and `frt` never survives contradiction resolution, irrespective of the
`melhorias` list, and never appears in the `fortes` output of the
qualitative parser. -/
theorem c4_bundled_sla_removed (mel fort : List String) (s content : String) :
    (s ∈ (removeContradictions mel fort).2 →
      ¬(pyIn "ttr" (nfNorm s) = true ∧ pyIn "frt" (nfNorm s) = true)) ∧
    (s ∈ (parsePontos content).fortes →
      ¬(pyIn "ttr" (nfNorm s) = true ∧ pyIn "frt" (nfNorm s) = true)) :=
  ⟨fun h => removeC_no_bundle h, fun h => parsePontos_no_bundle h⟩

/-! ### Range lemmas for the rating parser -/

theorem digitVal_range {d : Char} (h1 : '1' ≤ d) (h2 : d ≤ '5') :
    1 ≤ digitVal d ∧ digitVal d ≤ 5 := by
  have a1 : 49 ≤ d.toNat := h1
  have a2 : d.toNat ≤ 53 := h2
  have h0 : '0'.toNat = 48 := rfl
  unfold digitVal
  rw [h0]
  omega

theorem digit_guard_range {d : Char}
    (hg : (decide ('1' ≤ d) && decide (d ≤ '5')) = true) :
    1 ≤ digitVal d ∧ digitVal d ≤ 5 := by
  have hh : '1' ≤ d ∧ d ≤ '5' := by simpa using hg
  exact digitVal_range hh.1 hh.2

theorem digit_guard_range2 {d : Char} {b : Bool}
    (hg : ((decide ('1' ≤ d) && decide (d ≤ '5')) && b) = true) :
    1 ≤ digitVal d ∧ digitVal d ≤ 5 := by
  have hh : (('1' ≤ d ∧ d ≤ '5') ∧ b = true) := by simpa using hg
  exact digitVal_range hh.1.1 hh.1.2

theorem digit_guard_range3 {d : Char} {b c : Bool}
    (hg : (((decide ('1' ≤ d) && decide (d ≤ '5')) && b) && c) = true) :
    1 ≤ digitVal d ∧ digitVal d ≤ 5 := by
  have hh : ((('1' ≤ d ∧ d ≤ '5') ∧ b = true) ∧ c = true) := by simpa using hg
  exact digitVal_range hh.1.1.1 hh.1.1.2

theorem matchDigitSepLine_range {cs : List Char} {v : Int} {s : String}
    (h : matchDigitSepLine cs = some (v, s)) : 1 ≤ v ∧ v ≤ 5 := by
  unfold matchDigitSepLine at h
  split at h
  case h_2 => cases h
  case h_1 d r1 heq =>
    split at h
    case isFalse => cases h
    case isTrue hg =>
      have hg2 : '1' ≤ d ∧ d ≤ '5' := by simpa using hg
      have hv : v = digitVal d := by
        dsimp only at h
        repeat' split at h
        all_goals
          first
          | (simp only [Option.some.injEq, Prod.mk.injEq] at h
             exact h.1.symm)
          | cases h
      rw [hv]
      exact digitVal_range hg2.1 hg2.2

theorem matchBareDigit_range {cs : List Char} {v : Int}
    (h : matchBareDigit cs = some v) : 1 ≤ v ∧ v ≤ 5 := by
  unfold matchBareDigit at h
  split at h
  case h_2 => cases h
  case h_1 d rest heq =>
    split at h
    case isFalse => cases h
    case isTrue hg =>
      have hg2 : ('1' ≤ d ∧ d ≤ '5') ∧ rest.all isPyWs = true := by simpa using hg
      have hv : v = digitVal d := by
        have := h
        simp only [Option.some.injEq] at this
        exact this.symm
      rw [hv]
      exact digitVal_range hg2.1.1 hg2.1.2

theorem lineHit_range {l : String} {r : NotaRes}
    (h : lineHit l = some r) : 1 ≤ r.nota ∧ r.nota ≤ 5 := by
  unfold lineHit at h
  dsimp only at h
  split at h
  case h_1 p heq =>
    obtain ⟨v, s⟩ := p
    have hrange := matchDigitSepLine_range heq
    have hr : r.nota = v := by
      have h2 := h
      simp only [Option.some.injEq] at h2
      rw [← h2]
    rw [hr]
    exact hrange
  case h_2 =>
    split at h
    case h_2 => cases h
    case h_1 n heq2 =>
      have hrange := matchBareDigit_range heq2
      have hr : r.nota = n := by
        have h2 := h
        simp only [Option.some.injEq] at h2
        rw [← h2]
      rw [hr]
      exact hrange

theorem findSome?_lineHit_range {ls : List String} {r : NotaRes}
    (h : ls.findSome? lineHit = some r) : 1 ≤ r.nota ∧ r.nota ≤ 5 := by
  induction ls with
  | nil => cases h
  | cons a t ih =>
    rw [List.findSome?_cons] at h
    revert h
    cases ha : lineHit a with
    | some x =>
      intro h
      cases h
      exact lineHit_range ha
    | none =>
      intro h
      exact ih h

theorem jsonNotaStep_range {fields : List (String × J)} {k : Int}
    (h : jsonNotaStep fields = .ok (some k)) : 1 ≤ k ∧ k ≤ 5 := by
  unfold jsonNotaStep at h
  repeat' split at h
  all_goals
    first
    | (simp only [Except.ok.injEq, Option.some.injEq] at h
       rw [← h]
       exact ⟨le_max_left 1 _, max_le (by norm_num) (min_le_left 5 _)⟩)
    | cases h

theorem jsonBranch_range {content : String} {r : NotaRes}
    (h : jsonBranch content = JsonStep.ret r) : 0 ≤ r.nota ∧ r.nota ≤ 5 := by
  have hopt : ∀ z : Option Int,
      (∀ k, z = some k → 1 ≤ k ∧ k ≤ 5) → 0 ≤ z.getD 0 ∧ z.getD 0 ≤ 5 := by
    intro z hz
    cases z with
    | none => simp
    | some k =>
      obtain ⟨a, b⟩ := hz k rfl
      constructor
      · simp only [Option.getD_some]
        omega
      · simpa using b
  unfold jsonBranch at h
  cases hjl : jsonLoads content with
  | none =>
    simp only [hjl] at h
    cases h
  | some v =>
    cases v with
    | jobj fields =>
      cases hns : jsonNotaStep fields with
      | error e =>
        simp only [hjl, hns] at h
        cases h
      | ok notaOpt =>
        cases hcs : jsonComStep fields with
        | error e =>
          simp only [hjl, hns, hcs] at h
          cases h
        | ok cv =>
          cases cv with
          | str s2 =>
            simp only [hjl, hns, hcs] at h
            cases h
            exact hopt notaOpt (fun k hk => jsonNotaStep_range (by rw [hk] at hns; exact hns))
          | jlist xs =>
            simp only [hjl, hns, hcs] at h
            cases h
            exact hopt notaOpt (fun k hk => jsonNotaStep_range (by rw [hk] at hns; exact hns))
    | jnull =>
      simp only [hjl] at h
      cases h
    | jbool b =>
      simp only [hjl] at h
      cases h
    | jint n =>
      simp only [hjl] at h
      cases h
    | jfloat m e =>
      simp only [hjl] at h
      cases h
    | jnan =>
      simp only [hjl] at h
      cases h
    | jinf ng =>
      simp only [hjl] at h
      cases h
    | jstr s2 =>
      simp only [hjl] at h
      cases h
    | jarr xs =>
      simp only [hjl] at h
      cases h

theorem searchPos_range {α : Type} {f : List Char → Option α} {P : α → Prop}
    (hf : ∀ cs v, f cs = some v → P v) :
    ∀ cs v, searchPos f cs = some v → P v := by
  intro cs
  induction cs with
  | nil =>
    intro v h
    unfold searchPos at h
    exact hf [] v h
  | cons c t ih =>
    intro v h
    unfold searchPos at h
    revert h
    cases hc : f (c :: t) with
    | some a =>
      intro h
      cases h
      exact hf _ _ hc
    | none =>
      intro h
      exact ih v h

theorem searchPosB_range {α : Type} {f : Option Char → List Char → Option α}
    {P : α → Prop} (hf : ∀ p cs v, f p cs = some v → P v) :
    ∀ p cs v, searchPosB f p cs = some v → P v := by
  intro p cs
  induction cs generalizing p with
  | nil =>
    intro v h
    unfold searchPosB at h
    exact hf p [] v h
  | cons c t ih =>
    intro v h
    unfold searchPosB at h
    revert h
    cases hc : f p (c :: t) with
    | some a =>
      intro h
      cases h
      exact hf _ _ _ hc
    | none =>
      intro h
      exact ih (some c) v h

theorem matchNotaEq_range {cs : List Char} {v : Int}
    (h : matchNotaEq cs = some v) : 1 ≤ v ∧ v ≤ 5 := by
  unfold matchNotaEq at h
  try dsimp only at h
  repeat' split at h
  all_goals
    first
    | (simp only [Option.some.injEq] at h
       first
       | exact h ▸ digit_guard_range ‹_›
       | exact h ▸ digit_guard_range2 ‹_›
       | exact h ▸ digit_guard_range3 ‹_›)
    | cases h

theorem matchQuotedNota_range {cs : List Char} {v : Int}
    (h : matchQuotedNota cs = some v) : 1 ≤ v ∧ v ≤ 5 := by
  unfold matchQuotedNota at h
  try dsimp only at h
  repeat' split at h
  all_goals
    first
    | (simp only [Option.some.injEq] at h
       first
       | exact h ▸ digit_guard_range ‹_›
       | exact h ▸ digit_guard_range2 ‹_›
       | exact h ▸ digit_guard_range3 ‹_›)
    | cases h

theorem matchFracFive_range {p : Option Char} {cs : List Char} {v : Int}
    (h : matchFracFive p cs = some v) : 1 ≤ v ∧ v ≤ 5 := by
  unfold matchFracFive at h
  try dsimp only at h
  repeat' split at h
  all_goals
    first
    | (simp only [Option.some.injEq] at h
       first
       | exact h ▸ digit_guard_range ‹_›
       | exact h ▸ digit_guard_range2 ‹_›
       | exact h ▸ digit_guard_range3 ‹_›)
    | cases h

theorem matchNotaSpace_range {p : Option Char} {cs : List Char} {v : Int}
    (h : matchNotaSpace p cs = some v) : 1 ≤ v ∧ v ≤ 5 := by
  unfold matchNotaSpace at h
  try dsimp only at h
  repeat' split at h
  all_goals
    first
    | (simp only [Option.some.injEq] at h
       first
       | exact h ▸ digit_guard_range ‹_›
       | exact h ▸ digit_guard_range2 ‹_›
       | exact h ▸ digit_guard_range3 ‹_›)
    | cases h

theorem matchLoneDigit_range {p : Option Char} {cs : List Char} {v : Int}
    (h : matchLoneDigit p cs = some v) : 1 ≤ v ∧ v ≤ 5 := by
  unfold matchLoneDigit at h
  try dsimp only at h
  repeat' split at h
  all_goals
    first
    | (simp only [Option.some.injEq] at h
       first
       | exact h ▸ digit_guard_range ‹_›
       | exact h ▸ digit_guard_range2 ‹_›
       | exact h ▸ digit_guard_range3 ‹_›)
    | cases h

theorem range15_to_05 {x : Int} (h : 1 ≤ x ∧ x ≤ 5) : 0 ≤ x ∧ x ≤ 5 :=
  ⟨le_trans (by norm_num) h.1, h.2⟩

/-- C1 (amended): on every input the rating parser either raises (an
`AttributeError` on JSON that decodes to a non-object, or an
`OverflowError` on an infinite float rating), returns `None`, or returns
a record whose rating lies in `{0,1,2,3,4,5}` — where `0` is the
not-evaluated sentinel produced by the JSON-object strategy when the
object lacks a usable `nota`, which every caller filters out.  It never
returns a rating above 5 or below 0. -/
theorem c1_parse_rating_range (T : String) :
    parseNota T = Except.error () ∨ parseNota T = Except.ok none ∨
    ∃ r, parseNota T = Except.ok (some r) ∧ 0 ≤ r.nota ∧ r.nota ≤ 5 := by
  unfold parseNota
  try dsimp only
  repeat' split
  all_goals
    first
    | exact Or.inl rfl
    | exact Or.inr (Or.inl rfl)
    | (refine Or.inr (Or.inr ⟨_, rfl, ?_⟩)
       first
       | exact range15_to_05 (matchDigitSepLine_range (by assumption))
       | exact range15_to_05 (matchBareDigit_range (by assumption))
       | exact range15_to_05 (findSome?_lineHit_range (by assumption))
       | exact jsonBranch_range (by assumption)
       | exact range15_to_05
           (searchPos_range (fun _ _ hh => matchNotaEq_range hh) _ _ (by assumption))
       | exact range15_to_05
           (searchPos_range (fun _ _ hh => matchQuotedNota_range hh) _ _ (by assumption))
       | exact range15_to_05
           (searchPosB_range (fun _ _ _ hh => matchFracFive_range hh) _ _ _ (by assumption))
       | exact range15_to_05
           (searchPosB_range (fun _ _ _ hh => matchNotaSpace_range hh) _ _ _ (by assumption))
       | exact range15_to_05
           (searchPosB_range (fun _ _ _ hh => matchLoneDigit_range hh) _ _ _ (by assumption))
       | exact ⟨le_trans (by norm_num) (le_max_left 1 _),
                max_le (by norm_num) (min_le_left 5 _)⟩)

/-- Counterexample to C1 as stated: the input `"{}"` decodes as an empty
JSON object, and the parser returns a record with rating `0` — the spec
says a rating of `0` is never returned. -/
theorem c1_parse_rating_counterexample :
    parseNota "\x7b\x7d" = Except.ok (some ⟨0, CVal.str "OK"⟩) ∧
    ¬(1 ≤ (0 : Int) ∧ (0 : Int) ≤ 5) :=
  ⟨rfl, by decide⟩

/-- C9: the three concrete parsing examples of the spec, verbatim. -/
theorem c9_parse_examples :
    parseNota "4 - resolved quickly"
      = Except.ok (some ⟨4, CVal.str "resolved quickly"⟩) ∧
    parseNota "```json\n\x7b\"nota\": 5, \"comentario\": \"ok\"\x7d\n```"
      = Except.ok (some ⟨5, CVal.str "ok"⟩) ∧
    parseNota "no idea" = Except.ok none :=
  ⟨rfl, rfl, rfl⟩

/-! ### Executor result shape (C10, C5, C6) -/

/-- A well-formed executor result: either a rating in `[1,5]`, or an
absent rating with a comment that starts with `Não avaliado`. -/
def JudgOk (j : Judg) : Prop :=
  (∃ n, j.nota = some n ∧ 1 ≤ n ∧ n ≤ 5) ∨
  (j.nota = none ∧ ∃ s, j.comentario = CVal.str s ∧ pyStarts "Não avaliado" s = true)

theorem failJudg_ok {msg : String} (hp : pyStarts "Não avaliado" msg = true) :
    JudgOk (failJudg msg) :=
  Or.inr ⟨rfl, msg, rfl, hp⟩

theorem classifyResp_found {sh : Shape} {code : Nat} {body : JBody} {j : Judg}
    (h : classifyResp sh code body = .found j) :
    ∃ n, j.nota = some n ∧ 1 ≤ n ∧ n ≤ 5 := by
  unfold classifyResp at h
  repeat' split at h
  all_goals
    first
    | (cases h
       rename_i hg
       simp only [Bool.and_eq_true, decide_eq_true_eq] at hg
       exact ⟨_, rfl, hg.1.2, hg.2⟩)
    | cases h

theorem attemptLoop_found {o : Oracle} {sh : Shape} :
    ∀ (n c : Nat) {j : Judg} {c2 : Nat}, attemptLoop o sh n c = (.found j, c2) →
    ∃ nn, j.nota = some nn ∧ 1 ≤ nn ∧ nn ≤ 5 := by
  intro n
  induction n with
  | zero =>
    intro c j c2 h
    unfold attemptLoop at h
    repeat' split at h
    all_goals try simp only [Prod.mk.injEq] at h
    all_goals
      first
      | (rename_i hcr hjeq
         subst hjeq
         exact classifyResp_found hcr)
      | (obtain ⟨hj, -⟩ := h
         first
         | (injection hj with hj2
            subst hj2
            exact classifyResp_found (by assumption))
         | injection hj)
  | succ n2 ih =>
    intro c j c2 h
    unfold attemptLoop at h
    repeat' split at h
    all_goals try simp only [Prod.mk.injEq] at h
    all_goals
      first
      | exact ih _ h
      | (rename_i hcr hjeq
         subst hjeq
         exact classifyResp_found hcr)
      | (obtain ⟨hj, -⟩ := h
         first
         | (injection hj with hj2
            subst hj2
            exact classifyResp_found (by assumption))
         | injection hj)

theorem tryShapes_found {o : Oracle} :
    ∀ (shapes : List Shape) (c : Nat) (g4 : Bool) {j : Judg} {c2 : Nat},
    tryShapes o shapes c g4 = (.found j, c2) →
    ∃ nn, j.nota = some nn ∧ 1 ≤ nn ∧ nn ≤ 5 := by
  intro shapes
  induction shapes with
  | nil =>
    intro c g4 j c2 h
    simp only [tryShapes, Prod.mk.injEq] at h
    obtain ⟨hj, -⟩ := h
    injection hj
  | cons sh rest ih =>
    intro c g4 j c2 h
    unfold tryShapes at h
    repeat' split at h
    all_goals try simp only [Prod.mk.injEq] at h
    all_goals
      first
      | exact ih _ _ h
      | (rename_i hal hjeq
         subst hjeq
         exact attemptLoop_found 4 c hal)
      | (obtain ⟨hj, -⟩ := h
         first
         | (injection hj with hj2
            subst hj2
            exact attemptLoop_found 4 c (by assumption))
         | injection hj)

theorem tryModels_ok {o : Oracle} :
    ∀ (ms : List String) (c : Nat) (g4 : Bool), JudgOk (tryModels o ms c g4).1 := by
  intro ms
  induction ms with
  | nil =>
    intro c g4
    cases g4 with
    | true => exact failJudg_ok (by decide)
    | false => exact failJudg_ok (by decide)
  | cons m rest ih =>
    intro c g4
    unfold tryModels
    split
    · exact ih c g4
    · revert ih
      cases hts : tryShapes o shapesOrder c g4 with
      | mk res cnt =>
        cases res with
        | found j2 =>
          intro _
          exact Or.inl (tryShapes_found shapesOrder c g4 hts)
        | unreachable =>
          intro _
          exact failJudg_ok (by decide)
        | next g4b =>
          intro ih
          exact ih cnt g4b

theorem discovery_abort_ok {out : Outcome} {j : Judg}
    (h : discovery out = .abort j) : JudgOk j := by
  unfold discovery at h
  repeat' split at h
  all_goals
    first
    | (cases h
       exact failJudg_ok (by decide))
    | cases h

/-- C10: every result of `get_issue_note_from_ollama` carries either a
rating in `[1,5]` (parser output is accepted only under the
`1 <= nota <= 5` guard, so the parser's `0` sentinel never propagates) or
an absent rating with a comment starting `Não avaliado`. -/
theorem c10_executor_judgment (o : Oracle) (c0 : Nat) (url : String)
    (model : Option String) : JudgOk (getIssueNote o c0 url model).1 := by
  unfold getIssueNote
  split
  · exact failJudg_ok (by decide)
  · cases hd : discovery (o c0) with
    | abort j => exact discovery_abort_ok hd
    | proceed installed => exact tryModels_ok _ (c0 + 1) false

/-! ### C5: last-attempt network failure aborts the whole evaluation -/

theorem attemptLoop_netFail_step {o : Oracle} {sh : Shape} {n c : Nat}
    (h : o c = Outcome.netFail) :
    attemptLoop o sh (n + 1) c = attemptLoop o sh n (c + 1) := by
  have e : attemptLoop o sh (n + 1) c =
      (match o c with
       | .netFail => attemptLoop o sh n (c + 1)
       | .pyExc => (ShapeRes.nextShape false, c + 1)
       | .resp code body =>
         match classifyResp sh code body with
         | .e404 => (ShapeRes.nextShape true, c + 1)
         | .brk => (ShapeRes.nextShape false, c + 1)
         | .found j => (ShapeRes.found j, c + 1)
         | .retry => attemptLoop o sh n (c + 1)) := rfl
  rw [e, h]

theorem attemptLoop_netFail_last {o : Oracle} {sh : Shape} {c : Nat}
    (h : o c = Outcome.netFail) :
    attemptLoop o sh 0 c = (ShapeRes.unreachable, c + 1) := by
  have e : attemptLoop o sh 0 c =
      (match o c with
       | .netFail => (ShapeRes.unreachable, c + 1)
       | .pyExc => (ShapeRes.nextShape false, c + 1)
       | .resp code body =>
         match classifyResp sh code body with
         | .e404 => (ShapeRes.nextShape true, c + 1)
         | .brk => (ShapeRes.nextShape false, c + 1)
         | .found j => (ShapeRes.found j, c + 1)
         | .retry => (ShapeRes.nextShape false, c + 1)) := rfl
  rw [e, h]

/-- C5: when a connection error / timeout occurs on the last allowed
attempt of the current (model, shape) pair — here: all five attempts of
the first shape of the current model fail transiently — the per-shape
loop aborts on that very call, and the whole executor run over the
remaining shapes and models returns the service-unreachable judgment at
request counter `c + 5`: no remaining shape or model is attempted. -/
theorem c5_unreachable_aborts (o : Oracle) (c : Nat) (sh : Shape)
    (rest : List Shape) (m : String) (ms : List String) (g4 : Bool)
    (hm : m ≠ "") (h : ∀ i, i ≤ 4 → o (c + i) = Outcome.netFail) :
    attemptLoop o sh 0 (c + 4) = (ShapeRes.unreachable, c + 5) ∧
    tryShapes o (sh :: rest) c g4 = (ModelStep.unreachable, c + 5) ∧
    tryModels o (m :: ms) c g4 = (failJudg failMsgTimeout, c + 5) := by
  have e5 : c + 4 + 1 = c + 5 := by omega
  have key : ∀ sh2 : Shape, attemptLoop o sh2 4 c = (ShapeRes.unreachable, c + 5) := by
    intro sh2
    rw [attemptLoop_netFail_step (by simpa using h 0 (by omega))]
    rw [attemptLoop_netFail_step (h 1 (by omega))]
    rw [show c + 1 + 1 = c + 2 by omega]
    rw [attemptLoop_netFail_step (h 2 (by omega))]
    rw [show c + 2 + 1 = c + 3 by omega]
    rw [attemptLoop_netFail_step (h 3 (by omega))]
    rw [show c + 3 + 1 = c + 4 by omega]
    rw [attemptLoop_netFail_last (h 4 (by omega))]
    try rw [e5]
  have hts : ∀ (sh2 : Shape) (rest2 : List Shape),
      tryShapes o (sh2 :: rest2) c g4 = (ModelStep.unreachable, c + 5) := by
    intro sh2 rest2
    unfold tryShapes
    rw [key sh2]
  refine ⟨?_, hts sh rest, ?_⟩
  · rw [attemptLoop_netFail_last (h 4 (by omega))]
    try rw [e5]
  · unfold tryModels
    rw [if_neg hm]
    rw [show shapesOrder = Shape.gen :: [Shape.chat, Shape.oai] from rfl]
    rw [hts Shape.gen [Shape.chat, Shape.oai]]

/-- Witness for C5 with the constantly-failing network oracle. -/
theorem c5_unreachable_aborts_witness :
    attemptLoop (fun _ => Outcome.netFail) Shape.gen 0 4
      = (ShapeRes.unreachable, 5) ∧
    tryModels (fun _ => Outcome.netFail) ["llama3.2"] 0 false
      = (failJudg failMsgTimeout, 5) := by
  have h := c5_unreachable_aborts (fun _ => Outcome.netFail) 0 Shape.gen []
    "llama3.2" [] false (by decide) (fun i _ => rfl)
  exact ⟨h.1, h.2.2⟩

/-- Witness for C4 at a concrete surviving statement. -/
theorem c4_bundled_sla_removed_witness :
    (¬(pyIn "ttr" (nfNorm "Atendimento claro e resolutivo do assignee") = true ∧
       pyIn "frt" (nfNorm "Atendimento claro e resolutivo do assignee") = true)) ∧
    (¬(pyIn "ttr" (nfNorm "Atendimento claro e resolutivo do assignee") = true ∧
       pyIn "frt" (nfNorm "Atendimento claro e resolutivo do assignee") = true)) :=
  ⟨(c4_bundled_sla_removed [] ["Atendimento claro e resolutivo do assignee"]
      "Atendimento claro e resolutivo do assignee"
      "Forte: Atendimento claro e resolutivo do assignee").1 (by decide),
   (c4_bundled_sla_removed [] ["Atendimento claro e resolutivo do assignee"]
      "Atendimento claro e resolutivo do assignee"
      "Forte: Atendimento claro e resolutivo do assignee").2 (by decide)⟩

/-! ### C6: backend candidate resolution -/

theorem dedupStrip_mem (l : List String) : ∀ (acc : List String) (x : String),
    x ∈ dedupStrip l acc ↔ x ∈ acc ∨ (x ≠ "" ∧ x ∈ l.map pyStrip) := by
  induction l with
  | nil =>
    intro acc x
    simp [dedupStrip]
  | cons y t ih =>
    intro acc x
    unfold dedupStrip
    dsimp only
    split
    · rename_i hcond
      rw [ih]
      have hc : pyStrip y = "" ∨ pyStrip y ∈ acc := by
        simpa using hcond
      simp only [List.map_cons, List.mem_cons]
      constructor
      · tauto
      · rintro (hx | ⟨hne, (hx | hx)⟩)
        · exact Or.inl hx
        · subst hx
          rcases hc with hc | hc
          · exact absurd hc hne
          · exact Or.inl hc
        · exact Or.inr ⟨hne, hx⟩
    · rename_i hcond
      rw [ih]
      have hc : ¬(pyStrip y = "") ∧ pyStrip y ∉ acc := by
        simpa using hcond
      simp only [List.map_cons, List.mem_cons, List.mem_append,
        List.mem_singleton, List.not_mem_nil, or_false]
      constructor
      · rintro ((hx | hx) | ⟨hne, hx⟩)
        · exact Or.inl hx
        · subst hx
          exact Or.inr ⟨hc.1, Or.inl rfl⟩
        · exact Or.inr ⟨hne, Or.inr hx⟩
      · rintro (hx | ⟨hne, (hx | hx)⟩)
        · exact Or.inl (Or.inl hx)
        · subst hx
          exact Or.inl (Or.inr rfl)
        · exact Or.inr ⟨hne, hx⟩

theorem dedupStrip_nodup (l : List String) :
    ∀ acc : List String, acc.Nodup → (dedupStrip l acc).Nodup := by
  induction l with
  | nil =>
    intro acc h
    simpa [dedupStrip] using h
  | cons y t ih =>
    intro acc h
    unfold dedupStrip
    dsimp only
    split
    · exact ih acc h
    · rename_i hcond
      apply ih
      have hc : ¬(pyStrip y = "") ∧ pyStrip y ∉ acc := by
        simpa using hcond
      simp [List.nodup_append, h, hc.2]

theorem dedupStrip_sublist (l : List String) : ∀ acc : List String,
    ∃ r, dedupStrip l acc = acc ++ r ∧ r.Sublist (l.map pyStrip) := by
  induction l with
  | nil =>
    intro acc
    exact ⟨[], by simp [dedupStrip], by simp⟩
  | cons y t ih =>
    intro acc
    unfold dedupStrip
    dsimp only
    split
    · obtain ⟨r, hr1, hr2⟩ := ih acc
      exact ⟨r, hr1, by simpa using hr2.cons (pyStrip y)⟩
    · obtain ⟨r, hr1, hr2⟩ := ih (acc ++ [pyStrip y])
      refine ⟨pyStrip y :: r, ?_, ?_⟩
      · rw [hr1, List.append_assoc]
        rfl
      · simpa using hr2.cons₂ (pyStrip y)

/-- Counterexample to C6 as stated: a connection error / timeout on the
discovery call makes `get_issue_note_from_ollama` return a failure
judgment after a single request — it neither "never fails" nor proceeds
with the fallback model list. -/
theorem c6_backend_resolver_counterexample :
    getIssueNote (fun _ => Outcome.netFail) 0 "http://x" none
      = (failJudg failMsgTimeout, 1) := rfl

/-- C6 (amended): the candidate list is deduplicated, keeps the
first-seen order of a sublist of (installed models, then the default
model, then the static fallback list, all stripped), and contains
exactly the non-empty stripped names of that sequence.  A discovery
response with a bad status (neither 404 nor 200) — like a decode error —
is swallowed and the run proceeds with only the default-plus-fallback
candidates; but a discovery connection error/timeout or a discovery 404
aborts the evaluation with a failure judgment instead of proceeding. -/
theorem c6_backend_resolver_amended (installed : List String) (m : String)
    (o : Oracle) (c0 : Nat) (url : String) (model : Option String)
    (code : Nat) (body : JBody) (h404 : code ≠ 404) (h200 : code ≠ 200) :
    (modelsToTry installed m).Nodup ∧
    (∀ x, x ∈ modelsToTry installed m ↔
      x ≠ "" ∧ x ∈ (installed ++ m :: staticFallback).map pyStrip) ∧
    (modelsToTry installed m).Sublist ((installed ++ m :: staticFallback).map pyStrip) ∧
    discovery (Outcome.resp code body) = DiscRes.proceed [] ∧
    (pyStrip url ≠ "" → o c0 = Outcome.resp code body →
      getIssueNote o c0 url model
        = tryModels o (modelsToTry [] (resolveModel model)) (c0 + 1) false) := by
  have hdisc : discovery (Outcome.resp code body) = DiscRes.proceed [] := by
    simp only [discovery]
    rw [if_neg h404, if_neg h200]
  refine ⟨?_, ?_, ?_, hdisc, ?_⟩
  · exact dedupStrip_nodup _ [] (by simp)
  · intro x
    rw [modelsToTry, dedupStrip_mem]
    simp
  · obtain ⟨r, hr1, hr2⟩ := dedupStrip_sublist (installed ++ m :: staticFallback) []
    rw [modelsToTry, hr1]
    simpa using hr2
  · intro hurl horc
    unfold getIssueNote
    rw [if_neg hurl, horc, hdisc]

/-- Witness for C6 (amended) at a concrete bad-status discovery. -/
theorem c6_backend_resolver_amended_witness :
    (modelsToTry ["m1"] "m2").Nodup ∧
    discovery (Outcome.resp 500 JBody.jerr) = DiscRes.proceed [] ∧
    getIssueNote (fun _ => Outcome.resp 500 JBody.jerr) 0 "http://x" none
      = tryModels (fun _ => Outcome.resp 500 JBody.jerr)
          (modelsToTry [] (resolveModel none)) 1 false := by
  have h := c6_backend_resolver_amended ["m1"] "m2"
    (fun _ => Outcome.resp 500 JBody.jerr) 0 "http://x" none 500 JBody.jerr
    (by decide) (by decide)
  exact ⟨h.1, h.2.2.2.1, h.2.2.2.2 (by decide) rfl⟩

/-! ### Controller lemmas (C7, C2, C8) -/

theorem alookup_cons {α : Type} (p : String × α) (t : List (String × α)) (k : String) :
    alookup (p :: t) k = if p.1 = k then some p.2 else alookup t k := by
  unfold alookup
  by_cases h : p.1 = k
  · simp [List.find?, h]
  · simp [List.find?, h]

theorem alookup_ainsert {α : Type} (l : List (String × α)) (k k2 : String) (v : α) :
    alookup (ainsert l k v) k2 = if k2 = k then some v else alookup l k2 := by
  induction l with
  | nil =>
    show alookup [(k, v)] k2 = _
    rw [alookup_cons]
    by_cases h : k = k2
    · rw [if_pos h, if_pos h.symm]
    · rw [if_neg h, if_neg (fun hh => h hh.symm)]
      try rfl
  | cons p t ih =>
    show alookup (if p.1 = k then (k, v) :: t else p :: ainsert t k v) k2 = _
    by_cases hpk : p.1 = k
    · rw [if_pos hpk, alookup_cons]
      by_cases h2 : k = k2
      · rw [if_pos h2, if_pos h2.symm]
      · rw [if_neg h2, if_neg (fun hh => h2 hh.symm), alookup_cons,
          if_neg (fun hh => h2 (hpk ▸ hh))]
    · rw [if_neg hpk, alookup_cons, alookup_cons, ih]
      by_cases hp2 : p.1 = k2
      · have hne : ¬(k2 = k) := fun hh => hpk (by rw [hp2, hh])
        rw [if_pos hp2, if_neg hne, if_pos hp2]
      · rw [if_neg hp2]
        by_cases h2 : k2 = k
        · rw [if_pos h2, if_pos h2]
        · rw [if_neg h2, if_neg h2, if_neg hp2]

theorem alookup_foldl_ainsert {α : Type} (g : String → α) :
    ∀ (keys : List String) (init : List (String × α)) (k : String),
    alookup (keys.foldl (fun acc k2 => ainsert acc k2 (g k2)) init) k
      = if k ∈ keys then some (g k) else alookup init k := by
  intro keys
  induction keys with
  | nil =>
    intro init k
    simp
  | cons k1 t ih =>
    intro init k
    rw [List.foldl_cons, ih]
    by_cases hk : k ∈ t
    · rw [if_pos hk, if_pos (List.mem_cons_of_mem _ hk)]
    · rw [if_neg hk, alookup_ainsert]
      by_cases h2 : k = k1
      · subst h2
        simp [List.mem_cons_self]
      · rw [if_neg h2, if_neg (by simp [h2, hk])]

/-- C7: when every ticket of the batch already has a valid (1–5) rating
in the durable store, a non-forced run of the evaluation loop performs
zero evaluator invocations and returns exactly the loaded judgments. -/
theorem c7_cached_run_no_calls (keys : List String) (db : DB)
    (cacheMap : List (String × EntryC)) (f : Nat → String → EntryC) (fuel : Nat)
    (hvalid : ∀ k ∈ keys,
      ((alookup (loadNotas db) k).map entryEval).getD false = true) :
    (runEvalAll false f keys db cacheMap fuel).map
        (fun st => (st.calls, keys.map (fun k => alookup st.out k)))
      = some (0, keys.map (fun k => alookup (loadNotas db) k)) := by
  have hinitEq : ∀ k ∈ keys, ∃ e, alookup (loadNotas db) k = some e ∧
      entryEval e = true ∧ initEntry (loadNotas db) cacheMap k = e := by
    intro k hk
    have hv := hvalid k hk
    cases hl : alookup (loadNotas db) k with
    | none =>
      rw [hl] at hv
      simp at hv
    | some e =>
      rw [hl] at hv
      simp at hv
      refine ⟨e, rfl, hv, ?_⟩
      simp only [initEntry, hl]
      rw [if_pos hv]
  have hout0 : ∀ k ∈ keys,
      alookup (keys.foldl (fun acc k2 =>
        ainsert acc k2 (initEntry (loadNotas db) cacheMap k2)) []) k
        = some (initEntry (loadNotas db) cacheMap k) := by
    intro k hk
    rw [alookup_foldl_ainsert]
    rw [if_pos hk]
  have hpend : pendingOf keys (keys.foldl (fun acc k2 =>
      ainsert acc k2 (initEntry (loadNotas db) cacheMap k2)) []) = [] := by
    unfold pendingOf
    rw [List.filter_eq_nil]
    intro k hk
    obtain ⟨e, hl, he, hi⟩ := hinitEq k hk
    rw [hout0 k hk, hi]
    simp [he]
  have e0 : runEvalAll false f keys db cacheMap fuel
      = runPasses f keys fuel
          ⟨keys.foldl (fun acc k2 =>
             ainsert acc k2 (initEntry (loadNotas db) cacheMap k2)) [], db, 0⟩ := rfl
  have e1 : runPasses f keys fuel
      ⟨keys.foldl (fun acc k2 =>
         ainsert acc k2 (initEntry (loadNotas db) cacheMap k2)) [], db, 0⟩
      = some ⟨keys.foldl (fun acc k2 =>
          ainsert acc k2 (initEntry (loadNotas db) cacheMap k2)) [],
          saveNotas (keys.foldl (fun acc k2 =>
            ainsert acc k2 (initEntry (loadNotas db) cacheMap k2)) []) db, 0⟩ := by
    unfold runPasses
    dsimp only
    rw [hpend]
    rfl
  rw [e0, e1]
  have e2 : (some (⟨keys.foldl (fun acc k2 =>
        ainsert acc k2 (initEntry (loadNotas db) cacheMap k2)) [],
        saveNotas (keys.foldl (fun acc k2 =>
          ainsert acc k2 (initEntry (loadNotas db) cacheMap k2)) []) db,
        0⟩ : LoopSt) : Option LoopSt).map
      (fun st => (st.calls, keys.map (fun k => alookup st.out k)))
      = some ((0 : Nat), keys.map (fun k =>
          alookup (keys.foldl (fun acc k2 =>
            ainsert acc k2 (initEntry (loadNotas db) cacheMap k2)) []) k)) := rfl
  rw [e2]
  refine congrArg some (congrArg (Prod.mk 0) ?_)
  apply List.map_congr_left
  intro k hk
  obtain ⟨e, hl, he, hi⟩ := hinitEq k hk
  rw [hout0 k hk, hi, hl]

/-- Witness for C7 on a one-ticket batch with a valid stored rating. -/
theorem c7_cached_run_no_calls_witness :
    (runEvalAll false (fun _ _ => ((none, CVal.str "x") : EntryC)) ["T1"]
        [("T1", (some 4, "ok"))] [] 0).map
        (fun st => (st.calls, ["T1"].map (fun k => alookup st.out k)))
      = some (0, ["T1"].map (fun k => alookup (loadNotas [("T1", (some 4, "ok"))]) k)) :=
  c7_cached_run_no_calls ["T1"] [("T1", (some 4, "ok"))] []
    (fun _ _ => ((none, CVal.str "x") : EntryC)) 0 (by decide)

/-! ### C2: cache put semantics -/

/-- Counterexample to C2 as stated: `_save_notas_to_db` is an
unconditional `INSERT OR REPLACE` with no forced-mode parameter; a
second (non-forced — there is no such marker on the save) save of a
different rating for the same ticket overwrites the first. -/
theorem c2_cache_put_counterexample :
    alookup (saveNotas [("T1", ((some 5 : Option Int), CVal.str "b"))]
        (saveNotas [("T1", ((some 3 : Option Int), CVal.str "a"))] [])) "T1"
      = some (some 5, "b") ∧ (some 5 : Option Int) ≠ some 3 :=
  ⟨rfl, by decide⟩

/-- C2 (amended): the merge-not-overwrite protection is enforced by the
evaluation-loop controller, not by the save primitive.  With ticket `k`
holding a valid rating `r1` in the store, a non-forced run performs no
evaluator call and writes the stored rating back unchanged, whatever
judgment `e2` the evaluator would produce; a forced run ignores the
store and overwrites `k` with the evaluator's judgment. -/
theorem c2_cache_put_amended (k : String) (hk1 : pyStrip k = k) (hk2 : k ≠ "")
    (r1 : Int) (hr1 : 1 ≤ r1) (hr5 : r1 ≤ 5) (com1 : String) (e2 : EntryC)
    (hval : entryEval e2 = true) (hbad : entryCBad e2 = false) (fuel : Nat) :
    (runEvalAll false (fun _ _ => e2) [k] [(k, (some r1, com1))] [] fuel).map
        (fun st => (alookup st.db k, st.calls))
      = some (some (some r1, pyTake 500 com1), 0) ∧
    (runEvalAll true (fun _ _ => e2) [k] [(k, (some r1, com1))] [] (fuel + 1)).map
        (fun st => (alookup st.db k, st.calls))
      = some (some (e2.1, entryCComment e2), 1) := by
  have hlt1 : ¬ (r1 < 1) := by omega
  have hlt5 : ¬ (5 < r1) := by omega
  have hrn : rangeNull (some r1) = some r1 := by
    simp [rangeNull, hlt1, hlt5]
  have htake : pyTake 500 (pyTake 500 com1) = pyTake 500 com1 := by
    show String.mk ((com1.toList.take 500).take 500) = String.mk (com1.toList.take 500)
    rw [List.take_take]
    norm_num
  have hload : loadNotas [(k, ((some r1 : Option Int), com1))]
      = [(k, ((some r1, CVal.str (pyTake 500 com1)) : EntryC))] := by
    unfold loadNotas
    simp only [List.foldl_cons, List.foldl_nil, hk1]
    rw [if_neg hk2, hrn]
    rfl
  have heval1 : entryEval ((some r1, CVal.str (pyTake 500 com1)) : EntryC) = true := by
    simp [entryEval, hr1, hr5]
  have hlook1 : alookup [(k, ((some r1, CVal.str (pyTake 500 com1)) : EntryC))] k
      = some ((some r1, CVal.str (pyTake 500 com1)) : EntryC) := by
    rw [alookup_cons]
    simp
  have hinit : initEntry (loadNotas [(k, ((some r1 : Option Int), com1))]) [] k
      = ((some r1, CVal.str (pyTake 500 com1)) : EntryC) := by
    rw [hload]
    simp only [initEntry, hlook1]
    rw [if_pos heval1]
  have hsave1 : saveNotas [(k, ((some r1, CVal.str (pyTake 500 com1)) : EntryC))]
      [(k, ((some r1 : Option Int), com1))]
      = [(k, ((some r1 : Option Int), pyTake 500 com1))] := by
    unfold saveNotas
    rw [if_neg (by simp), if_neg (by simp [entryCBad])]
    simp only [List.foldl_cons, List.foldl_nil, hk1]
    rw [if_neg hk2]
    show ainsert [(k, ((some r1 : Option Int), com1))] k
        ((some r1 : Option Int), pyTake 500 (pyTake 500 com1)) = _
    rw [htake]
    simp [ainsert]
  constructor
  · have e0 : runEvalAll false (fun _ _ => e2) [k] [(k, (some r1, com1))] [] fuel
        = runPasses (fun _ _ => e2) [k] fuel
            ⟨[k].foldl (fun acc k2 => ainsert acc k2
               (initEntry (loadNotas [(k, ((some r1 : Option Int), com1))]) [] k2)) [],
             [(k, (some r1, com1))], 0⟩ := rfl
    have hout0 : ([k].foldl (fun acc k2 => ainsert acc k2
        (initEntry (loadNotas [(k, ((some r1 : Option Int), com1))]) [] k2)) [])
        = [(k, ((some r1, CVal.str (pyTake 500 com1)) : EntryC))] := by
      simp only [List.foldl_cons, List.foldl_nil, hinit]
      rfl
    have hpend : pendingOf [k] [(k, ((some r1, CVal.str (pyTake 500 com1)) : EntryC))]
        = [] := by
      simp [pendingOf, hlook1, heval1]
    rw [e0, hout0]
    have e1 : runPasses (fun _ _ => e2) [k] fuel
        ⟨[(k, ((some r1, CVal.str (pyTake 500 com1)) : EntryC))],
         [(k, (some r1, com1))], 0⟩
        = some ⟨[(k, ((some r1, CVal.str (pyTake 500 com1)) : EntryC))],
            saveNotas [(k, ((some r1, CVal.str (pyTake 500 com1)) : EntryC))]
              [(k, (some r1, com1))], 0⟩ := by
      unfold runPasses
      dsimp only
      rw [hpend]
      rfl
    rw [e1, hsave1]
    have e2m : (some (⟨[(k, ((some r1, CVal.str (pyTake 500 com1)) : EntryC))],
        [(k, ((some r1 : Option Int), pyTake 500 com1))], 0⟩ : LoopSt) :
          Option LoopSt).map (fun st => (alookup st.db k, st.calls))
        = some (alookup [(k, ((some r1 : Option Int), pyTake 500 com1))] k, 0) := rfl
    rw [e2m, alookup_cons]
    simp
  · have hinit0 : initEntry ([] : List (String × EntryC)) [] k
        = ((none, CVal.str "—") : EntryC) := rfl
    have e0 : runEvalAll true (fun _ _ => e2) [k] [(k, (some r1, com1))] [] (fuel + 1)
        = runPasses (fun _ _ => e2) [k] (fuel + 1)
            ⟨[(k, ((none, CVal.str "—") : EntryC))], [(k, (some r1, com1))], 0⟩ := rfl
    have hlook0 : alookup [(k, ((none, CVal.str "—") : EntryC))] k
        = some ((none, CVal.str "—") : EntryC) := by
      rw [alookup_cons]
      simp
    have hpend0 : pendingOf [k] [(k, ((none, CVal.str "—") : EntryC))] = [k] := by
      simp [pendingOf, hlook0, entryEval]
    have hsave2 : ∀ dbx : DB, saveNotas [(k, e2)] dbx
        = ainsert dbx k (e2.1, entryCComment e2) := by
      intro dbx
      unfold saveNotas
      rw [if_neg (by simp), if_neg (by simp [hbad])]
      simp only [List.foldl_cons, List.foldl_nil, hk1]
      rw [if_neg hk2]
    have hstep : runPassOnce (fun _ _ => e2) [k]
        ⟨[(k, ((none, CVal.str "—") : EntryC))], [(k, (some r1, com1))], 0⟩
        = ⟨[(k, e2)], ainsert [(k, ((some r1 : Option Int), com1))] k
            (e2.1, entryCComment e2), 1⟩ := by
      unfold runPassOnce
      simp only [List.foldl_cons, List.foldl_nil]
      rw [show ainsert [(k, ((none, CVal.str "—") : EntryC))] k e2 = [(k, e2)] by
        simp [ainsert]]
      rw [hsave2]
    have hlook2 : alookup [(k, e2)] k = some e2 := by
      rw [alookup_cons]
      simp
    have hpend2 : pendingOf [k] [(k, e2)] = [] := by
      simp [pendingOf, hlook2, hval]
    rw [e0]
    have e1 : runPasses (fun _ _ => e2) [k] (fuel + 1)
        ⟨[(k, ((none, CVal.str "—") : EntryC))], [(k, (some r1, com1))], 0⟩
        = runPasses (fun _ _ => e2) [k] fuel
            ⟨[(k, e2)], ainsert [(k, ((some r1 : Option Int), com1))] k
              (e2.1, entryCComment e2), 1⟩ := by
      conv_lhs => rw [runPasses]
      dsimp only
      rw [hpend0, hstep]
      rfl
    rw [e1]
    have e3 : runPasses (fun _ _ => e2) [k] fuel
        ⟨[(k, e2)], ainsert [(k, ((some r1 : Option Int), com1))] k
          (e2.1, entryCComment e2), 1⟩
        = some ⟨[(k, e2)], saveNotas [(k, e2)]
            (ainsert [(k, ((some r1 : Option Int), com1))] k
              (e2.1, entryCComment e2)), 1⟩ := by
      unfold runPasses
      dsimp only
      rw [hpend2]
      rfl
    rw [e3, hsave2]
    have e4 : (some (⟨[(k, e2)],
        ainsert (ainsert [(k, ((some r1 : Option Int), com1))] k
          (e2.1, entryCComment e2)) k (e2.1, entryCComment e2), 1⟩ : LoopSt) :
          Option LoopSt).map (fun st => (alookup st.db k, st.calls))
        = some (alookup (ainsert (ainsert [(k, ((some r1 : Option Int), com1))] k
            (e2.1, entryCComment e2)) k (e2.1, entryCComment e2)) k, 1) := rfl
    rw [e4, alookup_ainsert]
    simp

/-- Witness for C2 (amended) on a concrete ticket. -/
theorem c2_cache_put_amended_witness :
    (runEvalAll false (fun _ _ => ((some 5, CVal.str "b") : EntryC)) ["T1"]
        [("T1", (some 3, "a"))] [] 0).map
        (fun st => (alookup st.db "T1", st.calls))
      = some (some (some 3, pyTake 500 "a"), 0) ∧
    (runEvalAll true (fun _ _ => ((some 5, CVal.str "b") : EntryC)) ["T1"]
        [("T1", (some 3, "a"))] [] 1).map
        (fun st => (alookup st.db "T1", st.calls))
      = some (some ((some 5 : Option Int),
          entryCComment ((some 5, CVal.str "b") : EntryC)), 1) :=
  c2_cache_put_amended "T1" rfl (by decide) 3 (by decide) (by decide) "a"
    ((some 5, CVal.str "b") : EntryC) (by decide) (by decide) 0

/-! ### C8: all-404 backend falls back to the rule-based scorer -/

/-- The rule-based scorer's rating is always in [1,5]. -/
theorem ruleBased_range (f : IssueFeat) :
    1 ≤ (ruleBased f).1 ∧ (ruleBased f).1 ≤ 5 := by
  unfold ruleBased
  dsimp only
  repeat' split
  all_goals norm_num

/-- Under an all-404 oracle the executor never returns an evaluated
judgment: discovery's 404 yields the not-a-daemon failure. -/
theorem getIssueNote_404 (c : Nat) (url : String) (model : Option String) :
    judgEval (getIssueNote (fun _ => Outcome.resp 404 JBody.jerr) c url model).1
      = false := by
  unfold getIssueNote
  split
  · rfl
  · rfl

/-- Under an all-404 oracle every `_evaluate_one_issue` call resolves to
the rule-based judgment, whatever the retry budget and request counter. -/
theorem evaluateOneIssue_404 (url : String) (model : Option String)
    (feat : IssueFeat) : ∀ (t c : Nat),
    (evaluateOneIssue (fun _ => Outcome.resp 404 JBody.jerr) url model feat t c).1
      = ruleJudg feat := by
  intro t
  induction t with
  | zero => intro c; rfl
  | succ n ih =>
    intro c
    show (if judgEval (getIssueNote (fun _ => Outcome.resp 404 JBody.jerr)
          c url model).1 = true
        then getIssueNote (fun _ => Outcome.resp 404 JBody.jerr) c url model
        else evaluateOneIssue (fun _ => Outcome.resp 404 JBody.jerr) url model feat
          n (getIssueNote (fun _ => Outcome.resp 404 JBody.jerr) c url model).2).1
      = ruleJudg feat
    rw [getIssueNote_404, if_neg (by simp)]
    exact ih _

/-- The rule-based judgment passes the evaluated-entry test. -/
theorem ruleEntry_eval (feat : IssueFeat) :
    entryEval (judgToEntry (ruleJudg feat)) = true := by
  have h := ruleBased_range feat
  simp [entryEval, judgToEntry, ruleJudg, h.1, h.2]

/-- Unfolding of the outer loop at zero fuel. -/
theorem runPasses_zero (f : Nat → String → EntryC) (keys : List String)
    (st : LoopSt) :
    runPasses f keys 0 st
      = (if (pendingOf keys st.out).isEmpty
         then some ⟨st.out, saveNotas st.out st.db, st.calls⟩
         else none) := rfl

/-- Unfolding of the outer loop at positive fuel. -/
theorem runPasses_succ (f : Nat → String → EntryC) (keys : List String)
    (fuel : Nat) (st : LoopSt) :
    runPasses f keys (fuel + 1) st
      = (if (pendingOf keys st.out).isEmpty
         then some ⟨st.out, saveNotas st.out st.db, st.calls⟩
         else runPasses f keys fuel (runPassOnce f (pendingOf keys st.out) st)) :=
  rfl

/-- The outer loop returns as soon as no key is pending, at any fuel. -/
theorem runPasses_done (f : Nat → String → EntryC) (keys : List String)
    (fuel : Nat) (st : LoopSt) (h : pendingOf keys st.out = []) :
    runPasses f keys fuel st
      = some ⟨st.out, saveNotas st.out st.db, st.calls⟩ := by
  cases fuel with
  | zero =>
    rw [runPasses_zero, h]
    rfl
  | succ n =>
    rw [runPasses_succ, h]
    rfl

/-- A pass of the inner loop with an evaluator that ignores the
invocation index updates the in-memory map exactly by folding the
per-key judgment over the pending keys. -/
theorem runPassOnce_out (f : Nat → String → EntryC) (g : String → EntryC)
    (hf : ∀ c k, f c k = g k) : ∀ (pending : List String) (st : LoopSt),
    (runPassOnce f pending st).out
      = pending.foldl (fun acc k => ainsert acc k (g k)) st.out := by
  intro pending
  induction pending with
  | nil => intro st; rfl
  | cons k t ih =>
    intro st
    have e : runPassOnce f (k :: t) st = runPassOnce f t
        ⟨ainsert st.out k (f st.calls k),
         saveNotas (ainsert st.out k (f st.calls k)) st.db, st.calls + 1⟩ := rfl
    rw [e, ih, hf]
    rfl

/-- C8: a backend that answers HTTP 404 to the discovery call and hence
to every endpoint shape of every model, with no transient failures,
makes the evaluation loop controller terminate (one pass of fuel beyond
the minimum suffices) with, for every ticket of the batch, exactly the
deterministic rule-based scorer's judgment — whose rating is an integer
in [1,5], never absent. -/
theorem c8_all_404_rule_fallback (url : String) (model : Option String)
    (featOf : String → IssueFeat) (keys : List String) (fuel : Nat) :
    ∃ st : LoopSt,
      runEvalAll false
        (fun c k => judgToEntry
          ((evaluateOneIssue (fun _ => Outcome.resp 404 JBody.jerr)
             url model (featOf k) 5 c).1)) keys [] [] (fuel + 1) = some st ∧
      ∀ k ∈ keys,
        alookup st.out k = some (judgToEntry (ruleJudg (featOf k))) ∧
        ∃ n : Int, (judgToEntry (ruleJudg (featOf k))).1 = some n ∧
          1 ≤ n ∧ n ≤ 5 := by
  have hrange : ∀ k : String, ∃ n : Int,
      (judgToEntry (ruleJudg (featOf k))).1 = some n ∧ 1 ≤ n ∧ n ≤ 5 :=
    fun k => ⟨(ruleBased (featOf k)).1, rfl, (ruleBased_range (featOf k)).1,
      (ruleBased_range (featOf k)).2⟩
  have hf : ∀ (c : Nat) (k : String),
      judgToEntry ((evaluateOneIssue (fun _ => Outcome.resp 404 JBody.jerr)
        url model (featOf k) 5 c).1) = judgToEntry (ruleJudg (featOf k)) := by
    intro c k
    rw [evaluateOneIssue_404]
  cases keys with
  | nil =>
    refine ⟨⟨[], saveNotas [] [], 0⟩, rfl, ?_⟩
    intro k hk
    exact absurd hk (List.not_mem_nil k)
  | cons k0 kt =>
    set fF : Nat → String → EntryC := fun c k => judgToEntry
      ((evaluateOneIssue (fun _ => Outcome.resp 404 JBody.jerr)
        url model (featOf k) 5 c).1) with hfF
    set gR : String → EntryC := fun k => judgToEntry (ruleJudg (featOf k)) with hgR
    set out0 : List (String × EntryC) := (k0 :: kt).foldl (fun acc k2 =>
      ainsert acc k2 (initEntry (loadNotas []) [] k2)) [] with hout0def
    set st1 : LoopSt := runPassOnce fF (k0 :: kt) ⟨out0, [], 0⟩ with hst1def
    have hcongr : ∀ (c : Nat) (k : String), fF c k = gR k := fun c k => hf c k
    have hlook0 : ∀ k ∈ k0 :: kt,
        alookup out0 k = some ((none, CVal.str "—") : EntryC) := by
      intro k hk
      rw [hout0def, alookup_foldl_ainsert, if_pos hk]
      rfl
    have hpend0 : pendingOf (k0 :: kt) out0 = k0 :: kt := by
      unfold pendingOf
      apply filter_id_of_all
      intro k hk
      rw [hlook0 k hk]
      rfl
    have e0 : runEvalAll false fF (k0 :: kt) [] [] (fuel + 1)
        = runPasses fF (k0 :: kt) (fuel + 1) ⟨out0, [], 0⟩ := by
      rw [hout0def]
      rfl
    have e1 : runPasses fF (k0 :: kt) (fuel + 1) ⟨out0, [], 0⟩
        = runPasses fF (k0 :: kt) fuel st1 := by
      rw [runPasses_succ]
      dsimp only
      rw [hpend0, hst1def]
      rfl
    have hst1out : st1.out
        = (k0 :: kt).foldl (fun acc k => ainsert acc k (gR k)) out0 := by
      rw [hst1def]
      exact runPassOnce_out fF gR hcongr (k0 :: kt) ⟨out0, [], 0⟩
    have hlook1 : ∀ k ∈ k0 :: kt, alookup st1.out k = some (gR k) := by
      intro k hk
      rw [hst1out, alookup_foldl_ainsert, if_pos hk]
    have hpend1 : pendingOf (k0 :: kt) st1.out = [] := by
      unfold pendingOf
      rw [List.filter_eq_nil]
      intro k hk
      rw [hlook1 k hk]
      simp [hgR, ruleEntry_eval]
    have e2 : runPasses fF (k0 :: kt) fuel st1
        = some ⟨st1.out, saveNotas st1.out st1.db, st1.calls⟩ :=
      runPasses_done fF (k0 :: kt) fuel st1 hpend1
    refine ⟨⟨st1.out, saveNotas st1.out st1.db, st1.calls⟩, ?_, ?_⟩
    · rw [e0, e1, e2]
    · intro k hk
      refine ⟨?_, hrange k⟩
      have h1 := hlook1 k hk
      rw [hgR] at h1
      exact h1

end L1
